import Mathlib

/-!
Verification of the family-tree engine (`genealogia_core.py`).

Shallow embedding conventions:
* Python `datetime.date` values are `Fecha` records (year, month, day); Python
  compares dates lexicographically on (year, month, day), which we mirror.
* Python `set[str]` fields are `Finset String` (a Python set is exactly a
  finite set; where the source iterates over a set we fix the sorted
  enumeration and note when the result does not depend on the order).
* Python `dict[str, X]` values are association lists `List (String × X)`
  with first-occurrence lookup; insertion appends (Python dicts preserve
  insertion order), assignment to an existing key updates in place.
* Python floats are embedded as exact arithmetic: `int(x)` of a nonnegative
  float expression becomes the floor, i.e. natural division.
* `random.*` draws are oracle parameters, constrained to the sampled
  vocabulary where the source constrains them.
* Exceptions (`raise ValueError`) become `Except String`.
-/

/-- A calendar date, mirroring Python `datetime.date` (year ≥ 1 for valid dates). -/
structure Fecha where
  year : Nat
  month : Nat
  day : Nat
deriving DecidableEq, Repr

/-- Gregorian leap-year test, as in Python's `calendar`/`datetime`. -/
def bisiesto (y : Nat) : Bool :=
  decide (y % 4 = 0) && (decide (y % 100 ≠ 0) || decide (y % 400 = 0))

/-- Number of days in a month of a given year (proleptic Gregorian calendar). -/
def diasEnMes (y m : Nat) : Nat :=
  if m = 2 then (if bisiesto y then 29 else 28)
  else if m = 4 ∨ m = 6 ∨ m = 9 ∨ m = 11 then 30
  else 31

/-- Validity of a `Fecha` under Python's `datetime.date` constraints. -/
def Fecha.valida (f : Fecha) : Prop :=
  1 ≤ f.year ∧ 1 ≤ f.month ∧ f.month ≤ 12 ∧ 1 ≤ f.day ∧ f.day ≤ diasEnMes f.year f.month

instance (f : Fecha) : Decidable f.valida := by
  unfold Fecha.valida; infer_instance

/-- Python date order: lexicographic on (year, month, day).  Non-strict. -/
def fechaLe (a b : Fecha) : Prop :=
  a.year < b.year ∨ (a.year = b.year ∧
    (a.month < b.month ∨ (a.month = b.month ∧ a.day ≤ b.day)))

instance (a b : Fecha) : Decidable (fechaLe a b) := by
  unfold fechaLe; infer_instance

/-- The day after `f` (used to advance the simulated clock day by day). -/
def sigDia (f : Fecha) : Fecha :=
  if f.day < diasEnMes f.year f.month then ⟨f.year, f.month, f.day + 1⟩
  else if f.month < 12 then ⟨f.year, f.month + 1, 1⟩
  else ⟨f.year + 1, 1, 1⟩

/-- `f + timedelta(days := n)`. -/
def addDias (f : Fecha) (n : Nat) : Fecha :=
  Nat.iterate sigDia n f

/-- `date.replace(year := y)`: keeps month and day, fails (Python `ValueError`)
if the result is not a valid date (e.g. Feb 29 of a non-leap year, or a year
below Python's `MINYEAR = 1`).  The year argument is an integer, since
`self.fecha_simulada.year - 10` may fall below 1. -/
def replaceYear (f : Fecha) (y : Int) : Option Fecha :=
  if 1 ≤ y ∧ 1 ≤ f.month ∧ f.month ≤ 12 ∧ 1 ≤ f.day ∧ f.day ≤ diasEnMes y.toNat f.month
  then some ⟨y.toNat, f.month, f.day⟩
  else none

/-- `anios_entre(fecha, ref)` from the source: whole years between two dates
(`ref.year - fecha.year`, minus one if `(ref.month, ref.day)` precedes
`(fecha.month, fecha.day)` in tuple order, floored at 0).  The source's
`fecha is None` branch cannot arise: `fecha_nacimiento` is a required field. -/
def anios_entre (fecha ref : Fecha) : Int :=
  max 0 (((ref.year : Int) - (fecha.year : Int)) -
    (if ref.month < fecha.month ∨ (ref.month = fecha.month ∧ ref.day < fecha.day)
     then 1 else 0))

/-- Fixed affinity vocabulary `AFINIDADES`. -/
def AFINIDADES : List String :=
  ["Deporte", "Arte", "Ciencia", "Música", "Lectura", "Viajes", "Gastronomía", "Videojuegos"]

/-- The `Persona` dataclass.  `salud_emocional` is a `Nat`: it is initialised
to 75 by the dataclass default and only ever updated through
`max(0, s - 10)`, so it never leaves `[0, ∞)`. -/
structure Persona where
  cedula : String
  nombre : String
  fecha_nacimiento : Fecha
  genero : String
  provincia : String
  estado_civil : String := "Soltero(a)"
  fecha_fallecimiento : Option Fecha := none
  padres : Finset String := ∅
  hijos : Finset String := ∅
  parejas : Finset String := ∅
  afinidades : Finset String := ∅
  historial : List (Nat × String) := []
  salud_emocional : Nat := 75
deriving DecidableEq

/-- `Persona.edad`: age at death if deceased, otherwise age at the reference
date.  The Python default reference `hoy()` (the real-world current date) is
passed explicitly by each caller. -/
def Persona.edad (p : Persona) (ref : Fecha) : Int :=
  match p.fecha_fallecimiento with
  | some d => anios_entre p.fecha_nacimiento d
  | none => anios_entre p.fecha_nacimiento ref

/-- `Persona.vivo`: alive iff no death date. -/
def Persona.vivo (p : Persona) : Bool :=
  p.fecha_fallecimiento.isNone

/-- `Persona.registrar_evento`: appends `(fecha_ref.year, descripcion)` to the
history.  The Python default `fecha_ref = hoy()` is passed explicitly. -/
def Persona.registrar_evento (p : Persona) (descripcion : String) (fecha_ref : Fecha) : Persona :=
  { p with historial := p.historial ++ [(fecha_ref.year, descripcion)] }

/-- `Persona.marcar_fallecido`: no-op if already deceased; otherwise records
the death date, switches to "Viudo(a)" when there are active partners, and
logs the event (dated, as in the source, at the real-world `hoy()`). -/
def Persona.marcar_fallecido (p : Persona) (fecha_def : Fecha) (hoy : Fecha) : Persona :=
  if p.fecha_fallecimiento.isSome then p
  else
    ({ p with
        fecha_fallecimiento := some fecha_def,
        estado_civil := if p.parejas ≠ ∅ then "Viudo(a)" else p.estado_civil
      }).registrar_evento "Fallecimiento" hoy

/-- `Persona.es_compatible_para_union`, translated line by line.  Both ages are
taken (as in the source, which calls `edad()` with no argument) at the
real-world date `hoy`.  The float expressions `int(100 * (c / t))` and
`int(0.6*a + 0.2*e + 0.2*g)` are embedded as exact floors, i.e. natural
division of nonnegative integers. -/
def Persona.es_compatible_para_union (p otra : Persona) (hoy : Fecha) : Bool :=
  if ¬ p.vivo ∨ ¬ otra.vivo then false
  else if p.estado_civil = "Casado(a)" ∨ p.estado_civil = "Unión libre" then false
  else if otra.estado_civil = "Casado(a)" ∨ otra.estado_civil = "Unión libre" then false
  else if p.edad hoy < 18 ∨ otra.edad hoy < 18 then false
  else if 15 < (p.edad hoy - otra.edad hoy).natAbs then false
  else
    let afin_comun := (p.afinidades ∩ otra.afinidades).card
    let afin_total := max (p.afinidades ∪ otra.afinidades).card 1
    let score_afinidad := (100 * afin_comun) / afin_total
    let score_emocional := (p.salud_emocional + otra.salud_emocional) / 2
    let comp_genetica := if p.padres ≠ ∅ ∧ p.padres = otra.padres then 20 else 100
    let indice := (6 * score_afinidad + 2 * score_emocional + 2 * comp_genetica) / 10
    decide (70 ≤ indice)

/-- The compatibility predicate exactly as §4.1 of the spec words it (for the
refinement claim C2): gate failures first, then
`affinity_score = ⌊100·|shared|/|union|⌋` (0 if the union is empty),
`emotional_score` the floor of the average, `genetic_score` 20 iff both
parent-sets are non-empty and identical, and
`index = ⌊0.6·affinity + 0.2·emotional + 0.2·genetic⌋`, compatible iff
`index ≥ 70`. -/
def compatible_spec (p otra : Persona) (hoy : Fecha) : Bool :=
  if ¬ p.vivo ∨ ¬ otra.vivo then false
  else if p.estado_civil = "Casado(a)" ∨ p.estado_civil = "Unión libre" ∨
          otra.estado_civil = "Casado(a)" ∨ otra.estado_civil = "Unión libre" then false
  else if p.edad hoy < 18 ∨ otra.edad hoy < 18 then false
  else if 15 < (p.edad hoy - otra.edad hoy).natAbs then false
  else
    let affinity_score : Nat :=
      if p.afinidades ∪ otra.afinidades = ∅ then 0
      else ⌊(100 * ((p.afinidades ∩ otra.afinidades).card : ℚ)) /
             (((p.afinidades ∪ otra.afinidades).card : ℚ))⌋₊
    let emotional_score : Nat :=
      ⌊(((p.salud_emocional : ℚ) + (otra.salud_emocional : ℚ)) / 2)⌋₊
    let genetic_score : Nat :=
      if p.padres ≠ ∅ ∧ otra.padres ≠ ∅ ∧ p.padres = otra.padres then 20 else 100
    let index : Nat :=
      ⌊((0.6 : ℚ) * affinity_score + (0.2 : ℚ) * emotional_score +
         (0.2 : ℚ) * genetic_score)⌋₊
    decide (70 ≤ index)

-- ------------------------- helper lemmas on floors -------------------------

theorem floor_div_nat_cast (m n : Nat) : ⌊((m : ℚ) / (n : ℚ))⌋₊ = m / n := by
  rcases Nat.eq_zero_or_pos n with h | h
  · subst h; simp
  · rw [Nat.floor_div_nat, Nat.floor_natCast]

theorem floor_pondera (sa se sg : Nat) :
    ⌊((0.6 : ℚ) * sa + (0.2 : ℚ) * se + (0.2 : ℚ) * sg)⌋₊ =
      (6 * sa + 2 * se + 2 * sg) / 10 := by
  have h : (0.6 : ℚ) * sa + (0.2 : ℚ) * se + (0.2 : ℚ) * sg =
      ((6 * sa + 2 * se + 2 * sg : ℕ) : ℚ) / ((10 : ℕ) : ℚ) := by
    push_cast
    norm_num
    ring
  rw [h, floor_div_nat_cast]

theorem floor_promedio (a b : Nat) :
    ⌊(((a : ℚ) + (b : ℚ)) / 2)⌋₊ = (a + b) / 2 := by
  have h : ((a : ℚ) + (b : ℚ)) / 2 = ((a + b : ℕ) : ℚ) / ((2 : ℕ) : ℚ) := by
    push_cast; ring
  rw [h, floor_div_nat_cast]

/-- C2: the source predicate `es_compatible_para_union` coincides with the
spec's reference definition `compatible_spec` on every pair of persons and
every reference date: same hard gates, and acceptance exactly when the
floored weighted index `⌊0.6·affinity + 0.2·emotional + 0.2·genetic⌋`
reaches 70, with `affinity = ⌊100·|shared|/|union|⌋` (0 on empty union),
`emotional` the floored average of the emotional-health scalars and
`genetic` 20 precisely when both parent-sets are non-empty and identical. -/
theorem afin_score_eq (p otra : Persona) :
    (if p.afinidades ∪ otra.afinidades = ∅ then 0
      else ⌊(100 * ((p.afinidades ∩ otra.afinidades).card : ℚ)) /
        (((p.afinidades ∪ otra.afinidades).card : ℚ))⌋₊) =
      (100 * (p.afinidades ∩ otra.afinidades).card) /
        (max (p.afinidades ∪ otra.afinidades).card 1) := by
  by_cases hu : p.afinidades ∪ otra.afinidades = ∅
  · have hsub : p.afinidades ∩ otra.afinidades ⊆ p.afinidades ∪ otra.afinidades :=
      Finset.inter_subset_union
    rw [hu] at hsub
    have hi : p.afinidades ∩ otra.afinidades = ∅ := Finset.subset_empty.mp hsub
    simp [hu, hi]
  · have hc : (p.afinidades ∪ otra.afinidades).card ≠ 0 := by
      simpa [Finset.card_eq_zero] using hu
    have hmax : max (p.afinidades ∪ otra.afinidades).card 1 =
        (p.afinidades ∪ otra.afinidades).card := by omega
    rw [if_neg hu, hmax]
    have h := floor_div_nat_cast (100 * (p.afinidades ∩ otra.afinidades).card)
      ((p.afinidades ∪ otra.afinidades).card)
    rw [← h]
    norm_cast

theorem gen_score_eq (p otra : Persona) :
    (if p.padres ≠ ∅ ∧ otra.padres ≠ ∅ ∧ p.padres = otra.padres then 20 else 100 : Nat) =
      (if p.padres ≠ ∅ ∧ p.padres = otra.padres then 20 else 100 : Nat) := by
  by_cases hp : p.padres ≠ ∅ ∧ p.padres = otra.padres
  · have h : p.padres ≠ ∅ ∧ otra.padres ≠ ∅ ∧ p.padres = otra.padres := by
      refine ⟨hp.1, ?_, hp.2⟩
      rw [← hp.2]; exact hp.1
    rw [if_pos h, if_pos hp]
  · have h : ¬ (p.padres ≠ ∅ ∧ otra.padres ≠ ∅ ∧ p.padres = otra.padres) := by tauto
    rw [if_neg h, if_neg hp]

theorem C2_compatibilidad_refina_spec (p otra : Persona) (hoy : Fecha) :
    p.es_compatible_para_union otra hoy = compatible_spec p otra hoy := by
  unfold Persona.es_compatible_para_union compatible_spec
  by_cases h1 : ¬ p.vivo ∨ ¬ otra.vivo
  · rw [if_pos h1, if_pos h1]
  · rw [if_neg h1, if_neg h1]
    by_cases h2 : p.estado_civil = "Casado(a)" ∨ p.estado_civil = "Unión libre"
    · rw [if_pos h2, if_pos (show p.estado_civil = "Casado(a)" ∨
        p.estado_civil = "Unión libre" ∨ otra.estado_civil = "Casado(a)" ∨
        otra.estado_civil = "Unión libre" by tauto)]
    · rw [if_neg h2]
      by_cases h3 : otra.estado_civil = "Casado(a)" ∨ otra.estado_civil = "Unión libre"
      · rw [if_pos h3, if_pos (show p.estado_civil = "Casado(a)" ∨
          p.estado_civil = "Unión libre" ∨ otra.estado_civil = "Casado(a)" ∨
          otra.estado_civil = "Unión libre" by tauto)]
      · rw [if_neg h3, if_neg (show ¬ (p.estado_civil = "Casado(a)" ∨
          p.estado_civil = "Unión libre" ∨ otra.estado_civil = "Casado(a)" ∨
          otra.estado_civil = "Unión libre") by tauto)]
        by_cases h4 : p.edad hoy < 18 ∨ otra.edad hoy < 18
        · rw [if_pos h4, if_pos h4]
        · rw [if_neg h4, if_neg h4]
          by_cases h5 : 15 < (p.edad hoy - otra.edad hoy).natAbs
          · rw [if_pos h5, if_pos h5]
          · rw [if_neg h5, if_neg h5]
            show _ = decide (70 ≤ ⌊(0.6 : ℚ) * _ + (0.2 : ℚ) * _ + (0.2 : ℚ) * _⌋₊)
            rw [floor_pondera, floor_promedio, afin_score_eq, gen_score_eq]

/-- C2 has no propositional hypotheses, but we record a concrete evaluation:
two single adults sharing both affinities are compatible
(index = (6·100 + 2·75 + 2·100)/10 = 95 ≥ 70). -/
theorem C2_compatibilidad_ejemplo :
    Persona.es_compatible_para_union
      { cedula := "1", nombre := "Ana", fecha_nacimiento := ⟨1985, 5, 10⟩,
        genero := "Femenino", provincia := "San José",
        afinidades := {"Arte", "Música"} }
      { cedula := "2", nombre := "Luis", fecha_nacimiento := ⟨1982, 3, 2⟩,
        genero := "Masculino", provincia := "Alajuela",
        afinidades := {"Arte", "Música"} }
      ⟨2025, 1, 1⟩ = true := by decide

-- ------------------------------- claim C8 -------------------------------

theorem anios_entre_nonneg (fecha ref : Fecha) : 0 ≤ anios_entre fecha ref := by
  unfold anios_entre
  exact le_max_left 0 _

theorem anios_entre_mono (fecha r r' : Fecha) (h : fechaLe r r') :
    anios_entre fecha r ≤ anios_entre fecha r' := by
  unfold anios_entre fechaLe at *
  split_ifs with h1 h2 <;> omega

/-- C8: `edad` is monotone non-decreasing as the reference date advances
(in the Python lexicographic date order), never negative, and for a deceased
person (death date present) independent of the reference date. -/
theorem C8_edad_monotona_nonneg_constante :
    (∀ (p : Persona) (r r' : Fecha), fechaLe r r' → p.edad r ≤ p.edad r') ∧
    (∀ (p : Persona) (r : Fecha), 0 ≤ p.edad r) ∧
    (∀ (p : Persona) (d : Fecha) (r r' : Fecha),
      p.fecha_fallecimiento = some d → p.edad r = p.edad r') := by
  refine ⟨?_, ?_, ?_⟩
  · intro p r r' h
    unfold Persona.edad
    cases hf : p.fecha_fallecimiento with
    | some d => exact le_refl _
    | none => exact anios_entre_mono _ _ _ h
  · intro p r
    unfold Persona.edad
    cases hf : p.fecha_fallecimiento with
    | some d => exact anios_entre_nonneg _ _
    | none => exact anios_entre_nonneg _ _
  · intro p d r r' h
    unfold Persona.edad
    rw [h]

/-- Witness for C8 at concrete inputs: a person born 1990-06-15, reference
dates 2020-01-01 ≤ 2020-12-31; and a deceased person whose age ignores the
reference date. -/
theorem C8_edad_monotona_nonneg_constante_witness :
    (Persona.edad
        { cedula := "1", nombre := "N", fecha_nacimiento := ⟨1990, 6, 15⟩,
          genero := "Otro", provincia := "San José" } ⟨2020, 1, 1⟩ ≤
      Persona.edad
        { cedula := "1", nombre := "N", fecha_nacimiento := ⟨1990, 6, 15⟩,
          genero := "Otro", provincia := "San José" } ⟨2020, 12, 31⟩) ∧
    (0 ≤ Persona.edad
        { cedula := "1", nombre := "N", fecha_nacimiento := ⟨1990, 6, 15⟩,
          genero := "Otro", provincia := "San José" } ⟨2020, 1, 1⟩) ∧
    (Persona.edad
        { cedula := "2", nombre := "M", fecha_nacimiento := ⟨1940, 2, 1⟩,
          genero := "Otro", provincia := "Cartago",
          fecha_fallecimiento := some ⟨1999, 3, 4⟩ } ⟨2000, 1, 1⟩ =
      Persona.edad
        { cedula := "2", nombre := "M", fecha_nacimiento := ⟨1940, 2, 1⟩,
          genero := "Otro", provincia := "Cartago",
          fecha_fallecimiento := some ⟨1999, 3, 4⟩ } ⟨2035, 1, 1⟩) :=
  ⟨C8_edad_monotona_nonneg_constante.1 _ _ _ (by decide),
   C8_edad_monotona_nonneg_constante.2.1 _ _,
   C8_edad_monotona_nonneg_constante.2.2 _ ⟨1999, 3, 4⟩ _ _ rfl⟩

-- --------------------- dictionaries as association lists ---------------------

/-- First-occurrence lookup in an association list (Python `dict.get`). -/
def buscarM {α : Type} : List (String × α) → String → Option α
  | [], _ => none
  | (c, p) :: r, ced => if c = ced then some p else buscarM r ced

/-- Python `d[k] = v`: update in place if the key exists, else append
(Python dicts preserve insertion order). -/
def dictSet {α : Type} : List (String × α) → String → α → List (String × α)
  | [], ced, p => [(ced, p)]
  | (c, q) :: r, ced, p => if c = ced then (c, p) :: r else (c, q) :: dictSet r ced p

/-- In-place mutation of the value stored under a key (no-op if absent):
models Python mutating the object held in the dict. -/
def modifM {α : Type} : List (String × α) → String → (α → α) → List (String × α)
  | [], _, _ => []
  | (c, p) :: r, ced, f => if c = ced then (c, f p) :: r else (c, p) :: modifM r ced f

theorem buscarM_modifM {α : Type} (l : List (String × α)) (k c : String) (f : α → α) :
    buscarM (modifM l k f) c = if c = k then (buscarM l k).map f else buscarM l c := by
  induction l with
  | nil => by_cases h : c = k <;> simp [modifM, buscarM, h]
  | cons kv r ih =>
    obtain ⟨c0, p0⟩ := kv
    by_cases h0 : c0 = k
    · subst h0
      by_cases h1 : c = c0
      · simp [modifM, buscarM, h1]
      · have h1' : ¬ c0 = c := fun hh => h1 hh.symm
        simp [modifM, buscarM, h1, h1']
    · by_cases h1 : c0 = c
      · subst h1
        have h0' : ¬ c0 = k := h0
        simp [modifM, buscarM, h0, h0']
      · simp [modifM, buscarM, h0, h1, ih]

theorem buscarM_dictSet {α : Type} (l : List (String × α)) (k c : String) (v : α) :
    buscarM (dictSet l k v) c = if c = k then some v else buscarM l c := by
  induction l with
  | nil =>
    by_cases h : c = k
    · simp [dictSet, buscarM, h]
    · have h' : ¬ k = c := fun hh => h hh.symm
      simp [dictSet, buscarM, h, h']
  | cons kv r ih =>
    obtain ⟨c0, p0⟩ := kv
    by_cases h0 : c0 = k
    · subst h0
      by_cases h1 : c = c0
      · simp [dictSet, buscarM, h1]
      · have h1' : ¬ c0 = c := fun hh => h1 hh.symm
        simp [dictSet, buscarM, h1, h1']
    · by_cases h1 : c0 = c
      · subst h1
        have h0' : ¬ c0 = k := h0
        simp [dictSet, buscarM, h0, h0']
      · simp [dictSet, buscarM, h0, h1, ih]

-- ------------------------------- Familia -------------------------------

/-- The `Familia` dataclass: a named, insertion-ordered map from cédula to
`Persona`. -/
structure Familia where
  id_familia : String
  nombre : String
  miembros : List (String × Persona) := []
deriving DecidableEq

/-- `Familia.obtener`: `self.miembros.get(cedula)`. -/
def Familia.obtener (fam : Familia) (cedula : String) : Option Persona :=
  buscarM fam.miembros cedula

/-- `Familia.todas_personas`: `list(self.miembros.values())`. -/
def Familia.todas_personas (fam : Familia) : List Persona :=
  fam.miembros.map Prod.snd

/-- Mutate the person stored under a cédula in place. -/
def modifMiembro (fam : Familia) (ced : String) (f : Persona → Persona) : Familia :=
  { fam with miembros := modifM fam.miembros ced f }

theorem obtener_modifMiembro (fam : Familia) (k c : String) (f : Persona → Persona) :
    (modifMiembro fam k f).obtener c =
      if c = k then (fam.obtener k).map f else fam.obtener c := by
  unfold modifMiembro Familia.obtener
  exact buscarM_modifM fam.miembros k c f

-- ------------------------------- registry -------------------------------

/-- The `ArbolGenealogico` manager: family registry plus the simulated clock.
Its constructor sets `fecha_simulada = hoy()`. -/
structure ArbolGenealogico where
  familias : List (String × Familia) := []
  fecha_simulada : Fecha
deriving DecidableEq

/-- `ArbolGenealogico.get_familia`. -/
def ArbolGenealogico.get_familia (arb : ArbolGenealogico) (id_familia : String) : Option Familia :=
  buscarM arb.familias id_familia

/-- Replace a family object in the registry in place (models mutating the
`Familia` object aliased from the registry dict). -/
def setFamilia (arb : ArbolGenealogico) (id_familia : String) (fam : Familia) : ArbolGenealogico :=
  { arb with familias := modifM arb.familias id_familia (fun _ => fam) }

theorem get_setFamilia (arb : ArbolGenealogico) (k c : String) (fam : Familia) :
    (setFamilia arb k fam).get_familia c =
      if c = k then (arb.get_familia k).map (fun _ => fam) else arb.get_familia c := by
  unfold setFamilia ArbolGenealogico.get_familia
  exact buscarM_modifM arb.familias k c _

/-- `ArbolGenealogico.crear_familia`: `raise ValueError` on an existing id. -/
def ArbolGenealogico.crear_familia (arb : ArbolGenealogico) (id_familia nombre : String) :
    Except String ArbolGenealogico :=
  if (arb.get_familia id_familia).isSome then Except.error "ID de familia ya existe"
  else Except.ok
    { arb with familias := dictSet arb.familias id_familia ⟨id_familia, nombre, []⟩ }

/-- `ArbolGenealogico.agregar_persona`.  `af1, af2` are the oracle outcome of
`random.sample(AFINIDADES, 2)` (used only when fewer than 2 affinities were
supplied; `set.update` is set union).  In the source the "Nacimiento" event is
appended to the object right after it is inserted in the dict; inserting the
already-updated person is the same final state. -/
def ArbolGenealogico.agregar_persona (arb : ArbolGenealogico) (id_familia : String)
    (persona : Persona) (af1 af2 : String) : Except String ArbolGenealogico :=
  match arb.get_familia id_familia with
  | none => Except.error "Familia no existe"
  | some fam =>
    if (fam.obtener persona.cedula).isSome then Except.error "Cédula ya existe en la familia"
    else
      let persona1 := if persona.afinidades.card < 2
        then { persona with afinidades := persona.afinidades ∪ {af1, af2} } else persona
      let persona2 := persona1.registrar_evento "Nacimiento" persona.fecha_nacimiento
      Except.ok (setFamilia arb id_familia
        { fam with miembros := dictSet fam.miembros persona.cedula persona2 })

/-- `ArbolGenealogico.unir_pareja`: the six in-place mutations are applied in
source order (partner-set adds, statuses, history entries); the event dates
default to the real-world `hoy()`, passed explicitly. -/
def ArbolGenealogico.unir_pareja (arb : ArbolGenealogico) (id_familia ced1 ced2 : String)
    (hoy : Fecha) : Bool × ArbolGenealogico :=
  match arb.get_familia id_familia with
  | none => (false, arb)
  | some fam =>
    match fam.obtener ced1, fam.obtener ced2 with
    | some a, some b =>
      if a.es_compatible_para_union b hoy then
        let f1 := modifMiembro fam ced1 (fun q => { q with parejas := insert b.cedula q.parejas })
        let f2 := modifMiembro f1 ced2 (fun q => { q with parejas := insert a.cedula q.parejas })
        let f3 := modifMiembro f2 ced1 (fun q => { q with estado_civil := "Unión libre" })
        let f4 := modifMiembro f3 ced2 (fun q => { q with estado_civil := "Unión libre" })
        let f5 := modifMiembro f4 ced1
          (fun q => q.registrar_evento ("Unión de pareja con " ++ b.nombre) hoy)
        let f6 := modifMiembro f5 ced2
          (fun q => q.registrar_evento ("Unión de pareja con " ++ a.nombre) hoy)
        (true, setFamilia arb id_familia f6)
      else (false, arb)
    | _, _ => (false, arb)

/-- `ArbolGenealogico.registrar_matrimonio`. -/
def ArbolGenealogico.registrar_matrimonio (arb : ArbolGenealogico) (id_familia ced1 ced2 : String)
    (hoy : Fecha) : Bool × ArbolGenealogico :=
  match arb.get_familia id_familia with
  | none => (false, arb)
  | some fam =>
    match fam.obtener ced1, fam.obtener ced2 with
    | some a, some b =>
      let paso : Bool × ArbolGenealogico :=
        if b.cedula ∈ a.parejas then (true, arb)
        else arb.unir_pareja id_familia ced1 ced2 hoy
      if paso.1 then
        match paso.2.get_familia id_familia with
        | none => (true, paso.2)   -- unreachable: the family persists
        | some famU =>
          let g1 := modifMiembro famU ced1 (fun q => { q with estado_civil := "Casado(a)" })
          let g2 := modifMiembro g1 ced2 (fun q => { q with estado_civil := "Casado(a)" })
          let g3 := modifMiembro g2 ced1
            (fun q => q.registrar_evento ("Matrimonio con " ++ b.nombre) hoy)
          let g4 := modifMiembro g3 ced2
            (fun q => q.registrar_evento ("Matrimonio con " ++ a.nombre) hoy)
          (true, setFamilia paso.2 id_familia g4)
      else (false, arb)
    | _, _ => (false, arb)

/-- `ArbolGenealogico.registrar_padre_hijo`: unconstrained parent/child link. -/
def ArbolGenealogico.registrar_padre_hijo (arb : ArbolGenealogico)
    (id_familia ced_padre ced_hijo : String) : Bool × ArbolGenealogico :=
  match arb.get_familia id_familia with
  | none => (false, arb)
  | some fam =>
    match fam.obtener ced_padre, fam.obtener ced_hijo with
    | some padre, some hijo =>
      let f1 := modifMiembro fam ced_hijo (fun q => { q with padres := insert padre.cedula q.padres })
      let f2 := modifMiembro f1 ced_padre (fun q => { q with hijos := insert hijo.cedula q.hijos })
      (true, setFamilia arb id_familia f2)
    | _, _ => (false, arb)

/-- Oracle for the random draws of one simulated birth:
`random.randint(10_000_000, 99_999_999)` for the cédula, `random.choice` for
name, gender and which parent's province, and `random.sample(AFINIDADES, 2)`
inside `agregar_persona` (the newborn starts with no affinities). -/
structure OraculoBebe where
  cedula : Nat
  nombre : String
  genero : String
  provinciaDeA : Bool
  af1 : String
  af2 : String
deriving DecidableEq

/-- The constraints the source's random draws guarantee. -/
def OraculoBebe.valido (o : OraculoBebe) : Prop :=
  10000000 ≤ o.cedula ∧ o.cedula ≤ 99999999 ∧
  o.nombre ∈ ["Alex", "Sam", "Pat", "Luz", "Mar", "Ari", "Noa", "Kai"] ∧
  o.genero ∈ ["Masculino", "Femenino"] ∧
  o.af1 ∈ AFINIDADES ∧ o.af2 ∈ AFINIDADES ∧ o.af1 ≠ o.af2

instance (o : OraculoBebe) : Decidable o.valido := by
  unfold OraculoBebe.valido; infer_instance

/-- `ArbolGenealogico.registrar_nacimiento_de_pareja`.  A `ValueError` raised
by the inner `agregar_persona` (cédula collision) propagates before any
parent/child mutation, hence the `Except`. -/
def ArbolGenealogico.registrar_nacimiento_de_pareja (arb : ArbolGenealogico)
    (id_familia ced1 ced2 : String) (ω : OraculoBebe) (hoy : Fecha) :
    Except String (Option Persona × ArbolGenealogico) :=
  match arb.get_familia id_familia with
  | none => Except.ok (none, arb)
  | some fam =>
    match fam.obtener ced1, fam.obtener ced2 with
    | some a, some b =>
      if b.cedula ∉ a.parejas then Except.ok (none, arb)
      else
        let p : Persona :=
          { cedula := toString ω.cedula, nombre := ω.nombre,
            fecha_nacimiento := arb.fecha_simulada, genero := ω.genero,
            provincia := if ω.provinciaDeA then a.provincia else b.provincia,
            estado_civil := "Soltero(a)" }
        match arb.agregar_persona id_familia p ω.af1 ω.af2 with
        | Except.error e => Except.error e
        | Except.ok arb1 =>
          match arb1.get_familia id_familia with
          | none => Except.ok (none, arb1)   -- unreachable
          | some fam1 =>
            let g1 := modifMiembro fam1 p.cedula
              (fun q => { q with padres := q.padres ∪ {a.cedula, b.cedula} })
            let g2 := modifMiembro g1 ced1 (fun q => { q with hijos := insert p.cedula q.hijos })
            let g3 := modifMiembro g2 ced2 (fun q => { q with hijos := insert p.cedula q.hijos })
            let g4 := modifMiembro g3 ced1
              (fun q => q.registrar_evento ("Nacimiento de hijo/a " ++ p.nombre) hoy)
            let g5 := modifMiembro g4 ced2
              (fun q => q.registrar_evento ("Nacimiento de hijo/a " ++ p.nombre) hoy)
            Except.ok (g5.obtener p.cedula, setFamilia arb1 id_familia g5)
    | _, _ => Except.ok (none, arb)

/-- `ArbolGenealogico.tick_diario`: advance the simulated date. -/
def ArbolGenealogico.tick_diario (arb : ArbolGenealogico) (dias : Nat) : ArbolGenealogico :=
  { arb with fecha_simulada := addDias arb.fecha_simulada dias }


-- --------------------- evaluation lemmas for the register operations ---------------------

/-- The person actually stored by a successful `agregar_persona` call. -/
def personaAlmacenada (p : Persona) (af1 af2 : String) : Persona :=
  (if p.afinidades.card < 2
    then { p with afinidades := p.afinidades ∪ {af1, af2} }
    else p).registrar_evento "Nacimiento" p.fecha_nacimiento

theorem crear_familia_existente (arb : ArbolGenealogico) (idf nom : String)
    (h : (arb.get_familia idf).isSome = true) :
    arb.crear_familia idf nom = Except.error "ID de familia ya existe" := by
  unfold ArbolGenealogico.crear_familia
  rw [if_pos h]

theorem crear_familia_nueva (arb : ArbolGenealogico) (idf nom : String)
    (h : ¬ (arb.get_familia idf).isSome = true) :
    arb.crear_familia idf nom =
      Except.ok { arb with familias := dictSet arb.familias idf ⟨idf, nom, []⟩ } := by
  unfold ArbolGenealogico.crear_familia
  rw [if_neg h]

theorem agregar_sin_familia (arb : ArbolGenealogico) (idf : String) (p : Persona)
    (af1 af2 : String) (hgf : arb.get_familia idf = none) :
    arb.agregar_persona idf p af1 af2 = Except.error "Familia no existe" := by
  unfold ArbolGenealogico.agregar_persona
  rw [hgf]

theorem agregar_duplicada (arb : ArbolGenealogico) (idf : String) (p : Persona)
    (af1 af2 : String) (fam : Familia) (hgf : arb.get_familia idf = some fam)
    (hdup : (fam.obtener p.cedula).isSome = true) :
    arb.agregar_persona idf p af1 af2 = Except.error "Cédula ya existe en la familia" := by
  unfold ArbolGenealogico.agregar_persona
  rw [hgf]
  dsimp only
  rw [if_pos hdup]

theorem agregar_exito (arb : ArbolGenealogico) (idf : String) (p : Persona)
    (af1 af2 : String) (fam : Familia) (hgf : arb.get_familia idf = some fam)
    (hdup : ¬ (fam.obtener p.cedula).isSome = true) :
    arb.agregar_persona idf p af1 af2 = Except.ok (setFamilia arb idf
      { fam with miembros := dictSet fam.miembros p.cedula (personaAlmacenada p af1 af2) }) := by
  unfold ArbolGenealogico.agregar_persona personaAlmacenada
  rw [hgf]
  dsimp only
  rw [if_neg hdup]

-- ------------------------------- claim C6 -------------------------------

/-- C6: `crear_familia` signals an error exactly when the family id is already
registered, `agregar_persona` exactly when the family is absent or the cédula
is already present; a raising call yields no successor state (in the source
the `raise` precedes every mutation, as the translated definitions show
structurally, so the registry, member map and supplied person are untouched),
and a successful call registers the family (resp. the person). -/
theorem C6_errores_alta :
    (∀ (arb : ArbolGenealogico) (idf nom : String),
      ((∃ e, arb.crear_familia idf nom = Except.error e) ↔
        (arb.get_familia idf).isSome = true) ∧
      (∀ s', arb.crear_familia idf nom = Except.ok s' →
        s'.get_familia idf = some ⟨idf, nom, []⟩ ∧
        ∀ j, j ≠ idf → s'.get_familia j = arb.get_familia j)) ∧
    (∀ (arb : ArbolGenealogico) (idf : String) (p : Persona) (af1 af2 : String),
      ((∃ e, arb.agregar_persona idf p af1 af2 = Except.error e) ↔
        (arb.get_familia idf = none ∨
          ∃ fam, arb.get_familia idf = some fam ∧ (fam.obtener p.cedula).isSome = true)) ∧
      (∀ s', arb.agregar_persona idf p af1 af2 = Except.ok s' →
        ∃ fam', s'.get_familia idf = some fam' ∧ (fam'.obtener p.cedula).isSome = true)) := by
  constructor
  · intro arb idf nom
    by_cases h : (arb.get_familia idf).isSome
    · have hrun := crear_familia_existente arb idf nom h
      refine ⟨⟨fun _ => h, fun _ => ⟨_, hrun⟩⟩, ?_⟩
      intro s' hs'
      rw [hrun] at hs'
      exact absurd hs' (by simp)
    · have hrun := crear_familia_nueva arb idf nom h
      constructor
      · constructor
        · rintro ⟨e, he⟩
          rw [hrun] at he
          exact absurd he (by simp)
        · intro hh
          exact absurd hh h
      · intro s' hs'
        rw [hrun] at hs'
        have hs2 : ({ arb with familias := dictSet arb.familias idf ⟨idf, nom, []⟩ } :
            ArbolGenealogico) = s' := by
          exact (Except.ok.injEq _ _).mp hs'
        subst hs2
        constructor
        · show buscarM (dictSet arb.familias idf _) idf = _
          rw [buscarM_dictSet, if_pos rfl]
        · intro j hj
          show buscarM (dictSet arb.familias idf _) j = _
          rw [buscarM_dictSet, if_neg hj]
          rfl
  · intro arb idf p af1 af2
    cases hgf : arb.get_familia idf with
    | none =>
      have hrun := agregar_sin_familia arb idf p af1 af2 hgf
      refine ⟨⟨fun _ => Or.inl rfl, fun _ => ⟨_, hrun⟩⟩, ?_⟩
      intro s' hs'
      rw [hrun] at hs'
      exact absurd hs' (by simp)
    | some fam =>
      by_cases hdup : (fam.obtener p.cedula).isSome
      · have hrun := agregar_duplicada arb idf p af1 af2 fam hgf hdup
        refine ⟨⟨fun _ => Or.inr ⟨fam, rfl, hdup⟩, fun _ => ⟨_, hrun⟩⟩, ?_⟩
        intro s' hs'
        rw [hrun] at hs'
        exact absurd hs' (by simp)
      · have hrun := agregar_exito arb idf p af1 af2 fam hgf hdup
        constructor
        · constructor
          · rintro ⟨e, he⟩
            rw [hrun] at he
            exact absurd he (by simp)
          · rintro (hnone | ⟨fam2, hfam2, hdup2⟩)
            · exact absurd hnone (by simp)
            · have hfe : fam2 = fam := ((Option.some.injEq _ _).mp hfam2).symm
              subst hfe
              exact absurd hdup2 hdup
        · intro s' hs'
          rw [hrun] at hs'
          have hs2 :
              (setFamilia arb idf
                { fam with
                    miembros := dictSet fam.miembros p.cedula (personaAlmacenada p af1 af2) }) =
                s' := by
            exact (Except.ok.injEq _ _).mp hs'
          subst hs2
          refine ⟨{ fam with
              miembros := dictSet fam.miembros p.cedula (personaAlmacenada p af1 af2) }, ?_, ?_⟩
          · rw [get_setFamilia, if_pos rfl, hgf]
            rfl
          · show (Familia.obtener _ p.cedula).isSome = true
            unfold Familia.obtener
            show (buscarM (dictSet fam.miembros p.cedula _) p.cedula).isSome = true
            rw [buscarM_dictSet, if_pos rfl]
            rfl

-- ------------------------------- claim C4 -------------------------------

/-- A registry holding one empty family, used by concrete scenarios. -/
def arbC4 : ArbolGenealogico :=
  { familias := [("f", { id_familia := "f", nombre := "Los Pérez" })],
    fecha_simulada := ⟨2025, 1, 1⟩ }

/-- A person supplied with exactly one affinity. -/
def personaC4 : Persona :=
  { cedula := "7", nombre := "Rosa", fecha_nacimiento := ⟨2000, 1, 1⟩,
    genero := "Femenino", provincia := "Heredia", afinidades := {"Deporte"} }

/-- C4 counterexample: a person supplied with exactly one affinity
("Deporte") and the realisable draw ("Arte", "Ciencia") ends up with THREE
affinity labels, not exactly 2: `set.update(random.sample(AFINIDADES, 2))`
takes a union, it does not fill up to exactly 2. -/
theorem C4_contraejemplo :
    ("Arte" ∈ AFINIDADES ∧ "Ciencia" ∈ AFINIDADES ∧ ("Arte" : String) ≠ "Ciencia") ∧
    personaC4.afinidades.card < 2 ∧
    ((arbC4.agregar_persona "f" personaC4 "Arte" "Ciencia").toOption.bind
      (fun s' => (s'.get_familia "f").bind (fun fam' => fam'.obtener "7"))).map
      (fun q => q.afinidades.card) = some 3 := by
  refine ⟨by decide, by decide, ?_⟩
  rfl

/-- C4 amended: a successful `add_person` on a person supplied with fewer
than 2 affinities stores the person with affinity set
`supplied ∪ {draw₁, draw₂}` — between 2 and 3 labels; the set has exactly 2
labels, all from the fixed vocabulary, (only) when no affinity was supplied. -/
theorem C4_afinidades_enmendada (arb : ArbolGenealogico) (idf : String) (p : Persona)
    (af1 af2 : String) (s' : ArbolGenealogico)
    (h1 : af1 ∈ AFINIDADES) (h2 : af2 ∈ AFINIDADES) (hne : af1 ≠ af2)
    (hcard : p.afinidades.card < 2)
    (hok : arb.agregar_persona idf p af1 af2 = Except.ok s') :
    ∃ fam' q, s'.get_familia idf = some fam' ∧ fam'.obtener p.cedula = some q ∧
      q.afinidades = p.afinidades ∪ {af1, af2} ∧
      2 ≤ q.afinidades.card ∧ q.afinidades.card ≤ 3 ∧
      (p.afinidades = ∅ → q.afinidades.card = 2 ∧ ∀ x ∈ q.afinidades, x ∈ AFINIDADES) := by
  cases hgf : arb.get_familia idf with
  | none =>
    rw [agregar_sin_familia arb idf p af1 af2 hgf] at hok
    exact absurd hok (by simp)
  | some fam =>
    by_cases hdup : (fam.obtener p.cedula).isSome
    · rw [agregar_duplicada arb idf p af1 af2 fam hgf hdup] at hok
      exact absurd hok (by simp)
    · rw [agregar_exito arb idf p af1 af2 fam hgf hdup] at hok
      have hs2 :
          (setFamilia arb idf
            { fam with
                miembros := dictSet fam.miembros p.cedula (personaAlmacenada p af1 af2) }) =
            s' := by
        exact (Except.ok.injEq _ _).mp hok
      subst hs2
      have hq : personaAlmacenada p af1 af2 =
          ({ p with afinidades := p.afinidades ∪ {af1, af2} }).registrar_evento
            "Nacimiento" p.fecha_nacimiento := by
        unfold personaAlmacenada
        rw [if_pos hcard]
      have hpar : ({af1, af2} : Finset String).card = 2 := by
        rw [Finset.card_insert_of_not_mem (by simpa using hne), Finset.card_singleton]
      have hqaf : (personaAlmacenada p af1 af2).afinidades = p.afinidades ∪ {af1, af2} := by
        rw [hq]
        rfl
      refine ⟨{ fam with
          miembros := dictSet fam.miembros p.cedula (personaAlmacenada p af1 af2) },
        personaAlmacenada p af1 af2, ?_, ?_, hqaf, ?_, ?_, ?_⟩
      · rw [get_setFamilia, if_pos rfl, hgf]
        rfl
      · show buscarM (dictSet fam.miembros p.cedula _) p.cedula = _
        rw [buscarM_dictSet, if_pos rfl]
      · rw [hqaf]
        have h2le : 2 ≤ (p.afinidades ∪ {af1, af2}).card := by
          have hsub : ({af1, af2} : Finset String) ⊆ p.afinidades ∪ {af1, af2} :=
            Finset.subset_union_right
          have := Finset.card_le_card hsub
          omega
        exact h2le
      · rw [hqaf]
        have hle : (p.afinidades ∪ {af1, af2}).card ≤
            p.afinidades.card + ({af1, af2} : Finset String).card :=
          Finset.card_union_le _ _
        omega
      · intro hvac
        rw [hqaf, hvac, Finset.empty_union]
        refine ⟨hpar, ?_⟩
        intro x hx
        rcases Finset.mem_insert.mp hx with h | h
        · subst h; exact h1
        · rw [Finset.mem_singleton.mp h]; exact h2

/-- A person supplied with no affinities, for the C4 witness. -/
def personaC4w : Persona :=
  { cedula := "8", nombre := "Iván", fecha_nacimiento := ⟨2001, 2, 2⟩,
    genero := "Masculino", provincia := "Limón" }

/-- The state after adding `personaC4w` with the draw ("Arte", "Ciencia"). -/
def estadoC4w : ArbolGenealogico :=
  match arbC4.agregar_persona "f" personaC4w "Arte" "Ciencia" with
  | Except.ok s => s
  | Except.error _ => arbC4

/-- Witness for the amended C4 at concrete inputs. -/
theorem C4_afinidades_enmendada_witness :
    ∃ fam' q, estadoC4w.get_familia "f" = some fam' ∧
      fam'.obtener personaC4w.cedula = some q ∧
      q.afinidades = personaC4w.afinidades ∪ {"Arte", "Ciencia"} ∧
      2 ≤ q.afinidades.card ∧ q.afinidades.card ≤ 3 ∧
      (personaC4w.afinidades = ∅ →
        q.afinidades.card = 2 ∧ ∀ x ∈ q.afinidades, x ∈ AFINIDADES) :=
  C4_afinidades_enmendada arbC4 "f" personaC4w "Arte" "Ciencia" estadoC4w
    (by decide) (by decide) (by decide) (by decide) (by rfl)


-- ------------------------------- claim C7 -------------------------------

/-- Resolve a person through the registry: family id, then cédula. -/
def miembroEn (arb : ArbolGenealogico) (idf ced : String) : Option Persona :=
  (arb.get_familia idf).bind (fun fam => fam.obtener ced)

theorem get_setFamilia_self (arb : ArbolGenealogico) (idf : String) (fam0 fam : Familia)
    (hf : arb.get_familia idf = some fam0) :
    (setFamilia arb idf fam).get_familia idf = some fam := by
  rw [get_setFamilia, if_pos rfl, hf]
  rfl

/-- C7: for two distinct member persons of an existing family who are not
already partnered (the source's guard `ced₂ ∉ a.parejas`), `marry` returns
true exactly when `is_union_compatible` holds; a false return leaves the
whole registry untouched; a true return stores both with status "Casado(a)",
the new mutual partner edge, and the "Unión de pareja" and "Matrimonio"
history entries appended in order. -/
theorem C7_matrimonio_correcto (arb : ArbolGenealogico) (idf ced1 ced2 : String) (hoy : Fecha)
    (fam : Familia) (a b : Persona)
    (hf : arb.get_familia idf = some fam)
    (ha : fam.obtener ced1 = some a) (hb : fam.obtener ced2 = some b)
    (hne : ced1 ≠ ced2)
    (hnp : b.cedula ∉ a.parejas) :
    ((arb.registrar_matrimonio idf ced1 ced2 hoy).1 = true ↔
      a.es_compatible_para_union b hoy = true) ∧
    ((arb.registrar_matrimonio idf ced1 ced2 hoy).1 = false →
      (arb.registrar_matrimonio idf ced1 ced2 hoy).2 = arb) ∧
    ((arb.registrar_matrimonio idf ced1 ced2 hoy).1 = true →
      miembroEn (arb.registrar_matrimonio idf ced1 ced2 hoy).2 idf ced1 =
        some { a with estado_civil := "Casado(a)",
                      parejas := insert b.cedula a.parejas,
                      historial := a.historial ++
                        [(hoy.year, "Unión de pareja con " ++ b.nombre),
                         (hoy.year, "Matrimonio con " ++ b.nombre)] } ∧
      miembroEn (arb.registrar_matrimonio idf ced1 ced2 hoy).2 idf ced2 =
        some { b with estado_civil := "Casado(a)",
                      parejas := insert a.cedula b.parejas,
                      historial := b.historial ++
                        [(hoy.year, "Unión de pareja con " ++ a.nombre),
                         (hoy.year, "Matrimonio con " ++ a.nombre)] }) := by
  have hne' : ced2 ≠ ced1 := fun hh => hne hh.symm
  unfold ArbolGenealogico.registrar_matrimonio ArbolGenealogico.unir_pareja
  rw [hf]
  dsimp only
  rw [ha, hb]
  dsimp only
  rw [if_neg hnp]
  by_cases hc : a.es_compatible_para_union b hoy
  · rw [if_pos hc]
    dsimp only
    simp only [eq_self_iff_true, if_true]
    rw [get_setFamilia_self arb idf fam _ hf]
    dsimp only
    refine ⟨⟨fun _ => hc, fun _ => rfl⟩, by simp, fun _ => ?_⟩
    unfold miembroEn
    rw [get_setFamilia_self _ idf _ _ (get_setFamilia_self arb idf fam _ hf)]
    constructor
    · simp [obtener_modifMiembro, hne, hne', ha, Persona.registrar_evento]
    · simp [obtener_modifMiembro, hne, hne', hb, Persona.registrar_evento]
  · rw [if_neg hc]
    dsimp only
    refine ⟨⟨fun hh => absurd hh (by simp), fun hh => absurd hh (by simpa using hc)⟩,
      fun _ => rfl, fun hh => absurd hh (by simp)⟩

/-- Concrete persons for the C7 witness: single adults sharing both
affinities, hence compatible. -/
def personaAnaC7 : Persona :=
  { cedula := "1", nombre := "Ana", fecha_nacimiento := ⟨1985, 5, 10⟩,
    genero := "Femenino", provincia := "San José", afinidades := {"Arte", "Música"} }

/-- Second person for the C7 witness. -/
def personaLuisC7 : Persona :=
  { cedula := "2", nombre := "Luis", fecha_nacimiento := ⟨1982, 3, 2⟩,
    genero := "Masculino", provincia := "Alajuela", afinidades := {"Arte", "Música"} }

/-- Family for the C7 witness. -/
def famC7 : Familia :=
  { id_familia := "f", nombre := "F",
    miembros := [("1", personaAnaC7), ("2", personaLuisC7)] }

/-- Registry for the C7 witness. -/
def arbC7 : ArbolGenealogico :=
  { familias := [("f", famC7)], fecha_simulada := ⟨2025, 1, 1⟩ }

/-- Witness for C7: on the concrete compatible pair, `marry` returns true. -/
theorem C7_matrimonio_correcto_witness :
    (arbC7.registrar_matrimonio "f" "1" "2" ⟨2025, 1, 1⟩).1 = true :=
  (C7_matrimonio_correcto arbC7 "f" "1" "2" ⟨2025, 1, 1⟩ famC7 personaAnaC7 personaLuisC7
    rfl rfl rfl (by decide) (by decide)).1.mpr (by decide)

-- ------------------------------- claim C9 -------------------------------

/-- A partnered adult, member of the C9 family. -/
def personaA9 : Persona :=
  { cedula := "11111111", nombre := "A", fecha_nacimiento := ⟨1980, 1, 1⟩,
    genero := "Masculino", provincia := "San José", estado_civil := "Unión libre",
    parejas := {"22222222"}, afinidades := {"Arte", "Música"} }

/-- The partner of `personaA9`. -/
def personaB9 : Persona :=
  { cedula := "22222222", nombre := "B", fecha_nacimiento := ⟨1982, 1, 1⟩,
    genero := "Femenino", provincia := "San José", estado_civil := "Unión libre",
    parejas := {"11111111"}, afinidades := {"Arte", "Música"} }

/-- An unrelated member whose cédula is a valid 8-digit draw. -/
def personaX9 : Persona :=
  { cedula := "55555555", nombre := "X", fecha_nacimiento := ⟨1990, 1, 1⟩,
    genero := "Otro", provincia := "Cartago", afinidades := {"Lectura", "Viajes"} }

/-- Registry for the C9 scenario. -/
def arbC9 : ArbolGenealogico :=
  { familias := [("f",
      { id_familia := "f", nombre := "F",
        miembros := [("11111111", personaA9), ("22222222", personaB9),
                     ("55555555", personaX9)] })],
    fecha_simulada := ⟨2030, 6, 1⟩ }

/-- The colliding draw: the generated 8-digit cédula equals an existing
member's cédula. -/
def bebeC9 : OraculoBebe :=
  { cedula := 55555555, nombre := "Alex", genero := "Masculino",
    provinciaDeA := true, af1 := "Arte", af2 := "Ciencia" }

/-- C9: with the active-partnership precondition satisfied and a realisable
identifier draw that collides with an existing member, `birth_from_union`
raises the duplicate-key `ValueError` instead of returning a person or
`None`; the raise happens inside `add_person`, before the parent/child
mutations, so the parents' child sets are untouched (the error branch of the
translated definition carries no mutated state). -/
theorem C9_nacimiento_colision :
    bebeC9.valido ∧
    ("22222222" : String) ∈ personaA9.parejas ∧
    arbC9.registrar_nacimiento_de_pareja "f" "11111111" "22222222" bebeC9 ⟨2030, 6, 1⟩ =
      Except.error "Cédula ya existe en la familia" := by
  refine ⟨by decide, by decide, ?_⟩
  rfl

/-- Witness for C6: creating a fresh family id succeeds and registers it. -/
def estadoC6w : ArbolGenealogico :=
  match arbC4.crear_familia "g" "G" with
  | Except.ok s => s
  | Except.error _ => arbC4

/-- Witness for C6 at concrete inputs: duplicate id raises, fresh id registers. -/
theorem C6_errores_alta_witness :
    (∃ e, arbC4.crear_familia "f" "X" = Except.error e) ∧
    estadoC6w.get_familia "g" = some ⟨"g", "G", []⟩ :=
  ⟨(C6_errores_alta.1 arbC4 "f" "X").1.mpr (by decide),
   ((C6_errores_alta.1 arbC4 "g" "G").2 estadoC6w (by rfl)).1⟩

-- ------------------------------- claim C10 -------------------------------

/-- `ArbolGenealogico.nacidos_ultimos_10_anios`: the cutoff is
`fecha_simulada.replace(year=fecha_simulada.year - 10)` (which can raise, see
`replaceYear`); survivors of the filter are the members whose birth date is
`>= cutoff`. -/
def ArbolGenealogico.nacidos_ultimos_10_anios (arb : ArbolGenealogico) (fam : Familia) :
    Option (List Persona) :=
  (replaceYear arb.fecha_simulada ((arb.fecha_simulada.year : Int) - 10)).map
    (fun cutoff => fam.todas_personas.filter
      (fun p => decide (fechaLe cutoff p.fecha_nacimiento)))

theorem bisiesto_mod4 (y : Nat) (h : bisiesto y = true) : y % 4 = 0 := by
  simp only [bisiesto, Bool.and_eq_true, Bool.or_eq_true, decide_eq_true_eq] at h
  exact h.1

theorem bisiesto_sub10 (y : Nat) (hy : 11 ≤ y) (h : y % 4 = 0) : bisiesto (y - 10) = false := by
  have h2 : (y - 10) % 4 = 2 := by omega
  simp only [bisiesto, Bool.and_eq_false_iff, decide_eq_false_iff_not]
  left
  omega

theorem diasEnMes_feb (y : Nat) : diasEnMes y 2 = if bisiesto y then 29 else 28 := by
  simp [diasEnMes]

theorem diasEnMes_ne2 (y y' m : Nat) (h : ¬ m = 2) : diasEnMes y m = diasEnMes y' m := by
  simp [diasEnMes, h]

/-- The C10 registry: a valid simulated date with year 10 — not February 29 —
on which the cutoff computation still fails (Python dates require year ≥ 1,
and `10 - 10 = 0`). -/
def arbC10 : ArbolGenealogico :=
  { familias := [], fecha_simulada := ⟨10, 6, 1⟩ }

/-- An empty family for the C10 counterexample. -/
def famC10 : Familia := { id_familia := "f", nombre := "F" }

/-- C10 counterexample: the claim promises a result list for every simulated
date other than the February-29 case, but a valid date with year ≤ 10 also
raises (`year - 10` falls below Python's `MINYEAR`). -/
theorem C10_contraejemplo :
    arbC10.fecha_simulada.valida ∧
    ¬ (arbC10.fecha_simulada.month = 2 ∧ arbC10.fecha_simulada.day = 29) ∧
    arbC10.nacidos_ultimos_10_anios famC10 = none := by
  refine ⟨by decide, by decide, ?_⟩
  rfl

/-- C10 amended: for a valid simulated date, `born_in_last_n_years` (n = 10)
raises exactly when the year is at most 10 or the date is February 29 (of a
leap year; year − 10 is then never leap); otherwise it returns exactly the
members whose birth date is on or after the same month/day ten years
earlier. -/
theorem C10_nacidos_enmendada (arb : ArbolGenealogico) (fam : Familia)
    (hv : arb.fecha_simulada.valida) :
    (arb.nacidos_ultimos_10_anios fam = none ↔
      (arb.fecha_simulada.year ≤ 10 ∨
        (arb.fecha_simulada.month = 2 ∧ arb.fecha_simulada.day = 29))) ∧
    (∀ res, arb.nacidos_ultimos_10_anios fam = some res →
      ∀ p, p ∈ res ↔ p ∈ fam.todas_personas ∧
        fechaLe ⟨arb.fecha_simulada.year - 10, arb.fecha_simulada.month,
                 arb.fecha_simulada.day⟩ p.fecha_nacimiento) := by
  obtain ⟨hy1, hm1, hm12, hd1, hdm⟩ := hv
  unfold ArbolGenealogico.nacidos_ultimos_10_anios replaceYear
  by_cases hC : 1 ≤ (arb.fecha_simulada.year : Int) - 10 ∧ 1 ≤ arb.fecha_simulada.month ∧
      arb.fecha_simulada.month ≤ 12 ∧ 1 ≤ arb.fecha_simulada.day ∧
      arb.fecha_simulada.day ≤
        diasEnMes ((arb.fecha_simulada.year : Int) - 10).toNat arb.fecha_simulada.month
  · rw [if_pos hC]
    have hy11 : 11 ≤ arb.fecha_simulada.year := by omega
    have htn : ((arb.fecha_simulada.year : Int) - 10).toNat = arb.fecha_simulada.year - 10 := by
      omega
    constructor
    · simp only [Option.map]
      constructor
      · intro h
        exact absurd h (by simp)
      · rintro (h10 | ⟨hm2, hd29⟩)
        · omega
        · -- Feb 29 cannot pass the day bound: year − 10 is not a leap year
          exfalso
          obtain ⟨_, _, _, _, hC5⟩ := hC
          rw [htn, hm2] at hC5
          rw [hm2, hd29] at hdm
          have hleap : bisiesto arb.fecha_simulada.year = true := by
            rw [diasEnMes_feb] at hdm
            by_contra hnb
            rw [if_neg (by simpa using hnb)] at hdm
            omega
          have hnl := bisiesto_sub10 arb.fecha_simulada.year hy11
            (bisiesto_mod4 _ hleap)
          rw [diasEnMes_feb, if_neg (by simp [hnl]), hd29] at hC5
          omega
    · intro res hres p
      simp only [Option.map, Option.some.injEq] at hres
      subst hres
      rw [List.mem_filter]
      rw [htn]
      simp [decide_eq_true_eq]
  · rw [if_neg hC]
    constructor
    · simp only [Option.map]
      constructor
      · intro _
        by_cases h10 : arb.fecha_simulada.year ≤ 10
        · exact Or.inl h10
        · right
          -- the only way the bound can fail on a valid date is February 29
          by_cases hm2 : arb.fecha_simulada.month = 2
          · refine ⟨hm2, ?_⟩
            by_contra hd29
            apply hC
            refine ⟨by omega, hm1, hm12, hd1, ?_⟩
            have htn : ((arb.fecha_simulada.year : Int) - 10).toNat =
                arb.fecha_simulada.year - 10 := by omega
            rw [htn, hm2]
            rw [hm2] at hdm
            rw [diasEnMes_feb] at hdm ⊢
            by_cases hb : bisiesto arb.fecha_simulada.year = true
            · rw [hb] at hdm
              simp only [if_true] at hdm
              split_ifs with hb2
              · omega
              · omega
            · rw [if_neg (by simpa using hb)] at hdm
              split_ifs with hb2
              · omega
              · omega
          · exfalso
            apply hC
            refine ⟨by omega, hm1, hm12, hd1, ?_⟩
            rw [diasEnMes_ne2 _ arb.fecha_simulada.year _ hm2]
            exact hdm
      · intro _
        trivial
    · intro res hres
      simp at hres

/-- Person born 2016-01-02, inside the 10-year window of 2025-01-01. -/
def personaC10a : Persona :=
  { cedula := "a", nombre := "Na", fecha_nacimiento := ⟨2016, 1, 2⟩,
    genero := "Otro", provincia := "San José" }

/-- Person born 2014-06-01, outside the 10-year window of 2025-01-01. -/
def personaC10b : Persona :=
  { cedula := "b", nombre := "Nb", fecha_nacimiento := ⟨2014, 6, 1⟩,
    genero := "Otro", provincia := "San José" }

/-- Family for the C10 witness. -/
def famC10w : Familia :=
  { id_familia := "f", nombre := "F",
    miembros := [("a", personaC10a), ("b", personaC10b)] }

/-- Registry for the C10 witness (simulated date 2025-01-01). -/
def arbC10w : ArbolGenealogico :=
  { familias := [("f", famC10w)], fecha_simulada := ⟨2025, 1, 1⟩ }

/-- The concrete query result for the C10 witness. -/
def resC10w : List Persona :=
  match arbC10w.nacidos_ultimos_10_anios famC10w with
  | some res => res
  | none => []

/-- Witness for the amended C10: at 2025-01-01 the query succeeds and contains
the person born 2016-01-02 (and the membership characterisation holds). -/
theorem C10_nacidos_enmendada_witness :
    personaC10a ∈ resC10w ↔ personaC10a ∈ famC10w.todas_personas ∧
      fechaLe ⟨2015, 1, 1⟩ personaC10a.fecha_nacimiento :=
  (C10_nacidos_enmendada arbC10w famC10w (by decide)).2 resC10w (by rfl) personaC10a

-- ------------------------------- claim C5 -------------------------------

/-- Kernel-computable lexicographic comparison of codepoint lists (the
built-in `String` order is implemented by well-founded recursion over
iterators and does not reduce inside `decide`, so we spell out our own). -/
def cadLeAux : List Char → List Char → Bool
  | [], _ => true
  | _ :: _, [] => false
  | a :: r, b :: t =>
    if a.val.toNat < b.val.toNat then true
    else if b.val.toNat < a.val.toNat then false
    else cadLeAux r t

/-- Total order on strings by codepoints, used only to fix one concrete
enumeration of a Python set. -/
def cadLe (s t : String) : Bool := cadLeAux s.data t.data

theorem cadLeAux_total (l1 l2 : List Char) :
    cadLeAux l1 l2 = true ∨ cadLeAux l2 l1 = true := by
  induction l1 generalizing l2 with
  | nil => left; rfl
  | cons a r ih =>
    cases l2 with
    | nil => right; rfl
    | cons b t =>
      rcases Nat.lt_trichotomy a.val.toNat b.val.toNat with h | h | h
      · left; simp [cadLeAux, h]
      · rcases ih t with h2 | h2
        · left; simp [cadLeAux, h, h2]
        · right; simp [cadLeAux, h.symm, h2]
      · right; simp [cadLeAux, h]

theorem cadLeAux_trans (l1 l2 l3 : List Char) (h12 : cadLeAux l1 l2 = true)
    (h23 : cadLeAux l2 l3 = true) : cadLeAux l1 l3 = true := by
  induction l1 generalizing l2 l3 with
  | nil => rfl
  | cons a r ih =>
    cases l2 with
    | nil => simp [cadLeAux] at h12
    | cons b t =>
      cases l3 with
      | nil => simp [cadLeAux] at h23
      | cons c u =>
        simp only [cadLeAux] at h12 h23 ⊢
        by_cases x1 : a.val.toNat < b.val.toNat
        · by_cases x2 : b.val.toNat < c.val.toNat
          · simp [show a.val.toNat < c.val.toNat by omega]
          · by_cases x3 : c.val.toNat < b.val.toNat
            · rw [if_neg x2, if_pos x3] at h23
              exact absurd h23 (by simp)
            · simp [show a.val.toNat < c.val.toNat by omega]
        · by_cases x2 : b.val.toNat < a.val.toNat
          · rw [if_neg x1, if_pos x2] at h12
            exact absurd h12 (by simp)
          · by_cases x3 : b.val.toNat < c.val.toNat
            · simp [show a.val.toNat < c.val.toNat by omega]
            · by_cases x4 : c.val.toNat < b.val.toNat
              · rw [if_neg x3, if_pos x4] at h23
                exact absurd h23 (by simp)
              · rw [if_neg x1, if_neg x2] at h12
                rw [if_neg x3, if_neg x4] at h23
                rw [if_neg (show ¬ a.val.toNat < c.val.toNat by omega),
                    if_neg (show ¬ c.val.toNat < a.val.toNat by omega)]
                exact ih t u h12 h23

theorem cadLeAux_antisymm (l1 l2 : List Char) (h12 : cadLeAux l1 l2 = true)
    (h21 : cadLeAux l2 l1 = true) : l1 = l2 := by
  induction l1 generalizing l2 with
  | nil =>
    cases l2 with
    | nil => rfl
    | cons b t => simp [cadLeAux] at h21
  | cons a r ih =>
    cases l2 with
    | nil => simp [cadLeAux] at h12
    | cons b t =>
      simp only [cadLeAux] at h12 h21
      by_cases x1 : a.val.toNat < b.val.toNat
      · rw [if_neg (by omega), if_pos x1] at h21
        exact absurd h21 (by simp)
      · by_cases x2 : b.val.toNat < a.val.toNat
        · rw [if_neg x1, if_pos x2] at h12
          exact absurd h12 (by simp)
        · rw [if_neg x1, if_neg x2] at h12
          rw [if_neg x2, if_neg x1] at h21
          have hab : a = b := Char.ext (UInt32.ext (by omega))
          rw [hab, ih t h12 h21]

instance : IsTotal String (fun a b => cadLe a b = true) :=
  ⟨fun a b => cadLeAux_total a.data b.data⟩

instance : IsTrans String (fun a b => cadLe a b = true) :=
  ⟨fun a b c => cadLeAux_trans a.data b.data c.data⟩

instance : IsAntisymm String (fun a b => cadLe a b = true) :=
  ⟨fun a b h1 h2 => by
    cases a
    cases b
    exact congrArg String.mk (cadLeAux_antisymm _ _ h1 h2)⟩

/-- A kernel-computable enumeration of a `Finset String`, standing for
Python's (arbitrary) set iteration order: insertion sort by `cadLe`, lifted
to the underlying multiset. -/
def listaOrdenada (s : Finset String) : List String :=
  Quot.liftOn s.val (List.insertionSort (fun a b => cadLe a b = true))
    (fun l1 l2 h => List.eq_of_perm_of_sorted
      ((List.perm_insertionSort _ l1).trans (h.trans (List.perm_insertionSort _ l2).symm))
      (List.sorted_insertionSort _ l1) (List.sorted_insertionSort _ l2))

theorem mem_listaOrdenada (s : Finset String) (x : String) :
    x ∈ listaOrdenada s ↔ x ∈ s := by
  rcases s with ⟨val, nd⟩
  revert nd
  refine Quotient.inductionOn val (fun l nd => ?_)
  show x ∈ List.insertionSort _ l ↔ _
  rw [List.Perm.mem_iff (List.perm_insertionSort _ l)]
  simp [Finset.mem_mk]

/-- Python's `max(candidatos, key=edad)`: first element attaining the maximal
age (later elements replace the current best only when strictly older). -/
def maxPorEdad (fechaSim : Fecha) : List Persona → Option Persona
  | [] => none
  | q :: r => some (r.foldl
      (fun best x => if best.edad fechaSim < x.edad fechaSim then x else best) q)

/-- `q` is counted as a "sibling" of `pp` for guardianship: a living person
other than `pp` whose (non-empty) parent set meets `pp`'s. -/
def esHermanoDe (pp q : Persona) : Bool :=
  !(q.cedula = pp.cedula : Bool) && q.vivo && !(q.padres = ∅ : Bool) &&
    !((q.padres ∩ pp.padres) = ∅ : Bool)

/-- Resolve a cédula to its person if that person is alive. -/
def resolverVivo (fam : Familia) (ced : String) : Option Persona :=
  match fam.obtener ced with
  | some ab => if ab.vivo then some ab else none
  | none => none

/-- The candidates contributed by one deceased parent `pp`: living members
other than `pp` sharing at least one parent with `pp` ("siblings"), then the
living parents of `pp` ("grandparents").  `pp.padres` is a Python set; we
enumerate it in a fixed order — the candidate multiset does not depend on it. -/
def candidatosTutor (fam : Familia) (pp : Persona) : List Persona :=
  (fam.todas_personas.filter (esHermanoDe pp)) ++
  ((listaOrdenada pp.padres).filterMap (resolverVivo fam))

/-- `[fam.obtener(c) for c in p.padres]`, resolved entries only. -/
def padresResueltos (fam : Familia) (p : Persona) : List Persona :=
  (listaOrdenada p.padres).filterMap fam.obtener

/-- All candidates gathered over the minor's (resolved) parents, in source
order: for each parent, siblings then grandparents. -/
def candidatosDe (fam : Familia) (p : Persona) : List Persona :=
  (padresResueltos fam p).foldl (fun acc pp => acc ++ candidatosTutor fam pp) []

/-- One iteration of the guardian-reassignment loop, for the member stored
under key `k`: if it is a living minor whose parent list is non-empty with
every entry resolved and deceased, and a candidate exists, append the
"Tutor legal asignado" event (dated at the real-world `hoy()`). -/
def pasoTutoria (fechaSim hoy : Fecha) (fam : Familia) (k : String) : Familia :=
  match fam.obtener k with
  | none => fam
  | some p =>
    if ¬ p.vivo then fam
    else if p.edad fechaSim < 18 then
      let padresOpt := (listaOrdenada p.padres).map fam.obtener
      if p.padres ≠ ∅ ∧ padresOpt.all (fun o =>
          match o with
          | some pp => !pp.vivo
          | none => false) then
        match maxPorEdad fechaSim (candidatosDe fam p) with
        | some tutor =>
          modifMiembro fam k
            (fun q => q.registrar_evento ("Tutor legal asignado: " ++ tutor.nombre) hoy)
        | none => fam
      else fam
    else fam

/-- `ArbolGenealogico.reasignar_tutoria_menores`: iterate the per-member step
over a snapshot of the member list (`fam.todas_personas()`), threading the
mutations.  `fechaSim` is `self.fecha_simulada`. -/
def reasignar_tutoria_menores (fam : Familia) (fechaSim hoy : Fecha) : Familia :=
  (fam.miembros.map Prod.fst).foldl (pasoTutoria fechaSim hoy) fam

/-- Living grandmother for the C5 scenario. -/
def personaG5 : Persona :=
  { cedula := "g", nombre := "Abuela", fecha_nacimiento := ⟨1950, 1, 1⟩,
    genero := "Femenino", provincia := "San José", afinidades := {"Arte", "Lectura"} }

/-- Deceased parent of the minor; child of the living grandmother. -/
def personaD5 : Persona :=
  { cedula := "d1", nombre := "Padre", fecha_nacimiento := ⟨1980, 1, 1⟩,
    genero := "Masculino", provincia := "San José",
    fecha_fallecimiento := some ⟨2024, 1, 1⟩, padres := {"g"},
    hijos := {"m"}, afinidades := {"Arte", "Lectura"} }

/-- A living minor whose parent set holds one deceased resolved parent and one
dangling identifier ("ghost"). -/
def personaM5 : Persona :=
  { cedula := "m", nombre := "Niño", fecha_nacimiento := ⟨2015, 1, 1⟩,
    genero := "Otro", provincia := "San José", padres := {"d1", "ghost"},
    afinidades := {"Arte", "Lectura"} }

/-- Family for the C5 counterexample. -/
def famC5 : Familia :=
  { id_familia := "f", nombre := "F",
    miembros := [("g", personaG5), ("d1", personaD5), ("m", personaM5)] }

/-- C5 counterexample: the minor "m" is alive, under 18, has a non-empty
parent set whose every RESOLVED parent ("d1") is deceased, and a candidate in
the claim's sense exists (the living grandparent "g", a parent of the
deceased parent "d1"); yet the guardian pass appends nothing, because the
source requires every parent IDENTIFIER to resolve and "ghost" does not. -/
theorem C5_contraejemplo :
    (famC5.obtener "m" = some personaM5 ∧ personaM5.vivo = true ∧
      personaM5.edad ⟨2025, 6, 1⟩ < 18 ∧ personaM5.padres ≠ ∅) ∧
    (∀ c ∈ personaM5.padres, (famC5.obtener c).map Persona.vivo ≠ some true) ∧
    (famC5.obtener "ghost" = none) ∧
    ("d1" ∈ personaM5.padres ∧ famC5.obtener "d1" = some personaD5 ∧
      personaD5.vivo = false ∧ "g" ∈ personaD5.padres ∧
      famC5.obtener "g" = some personaG5 ∧ personaG5.vivo = true) ∧
    ((reasignar_tutoria_menores famC5 ⟨2025, 6, 1⟩ ⟨2025, 6, 1⟩).obtener "m").map
      Persona.historial = some personaM5.historial := by
  refine ⟨by decide, by decide, by rfl, by decide, ?_⟩
  decide

/-- A person with the history log cleared — two persons with equal
`sinHistorial` differ at most in their history, which is all the guardian
pass ever mutates. -/
def Persona.sinHistorial (p : Persona) : Persona :=
  { p with historial := [] }

theorem sinHistorial_campos {p q : Persona} (h : p.sinHistorial = q.sinHistorial) :
    p.cedula = q.cedula ∧ p.nombre = q.nombre ∧ p.vivo = q.vivo ∧ p.padres = q.padres ∧
    p.hijos = q.hijos ∧ p.parejas = q.parejas ∧ ∀ ref, p.edad ref = q.edad ref := by
  cases p
  cases q
  simp only [Persona.sinHistorial, Persona.mk.injEq, and_true, true_and] at h
  obtain ⟨h1, h2, h3, h4, h5, h6, h7, h8, h9, h10, h11, h12⟩ := h
  subst h1 h2 h3 h4 h5 h6 h7 h8 h9 h10 h11 h12
  simp [Persona.vivo, Persona.edad]

theorem sinHistorial_evento (p : Persona) (d : String) (f : Fecha) :
    (p.registrar_evento d f).sinHistorial = p.sinHistorial := by
  cases p
  simp [Persona.registrar_evento, Persona.sinHistorial]

/-- Two families agreeing entry by entry up to history (same keys, in the
same order, with `sinHistorial`-equal persons). -/
def nucleoEq (f f' : Familia) : Prop :=
  List.Forall₂ (fun kv kv' => kv.1 = kv'.1 ∧ kv.2.sinHistorial = kv'.2.sinHistorial)
    f.miembros f'.miembros

theorem nucleoEq_refl (f : Familia) : nucleoEq f f := by
  unfold nucleoEq
  induction f.miembros with
  | nil => exact List.Forall₂.nil
  | cons kv r ih => exact List.Forall₂.cons ⟨rfl, rfl⟩ ih

theorem forall2_append {α β : Type} {R : α → β → Prop} {l1 l2 : List α} {l1' l2' : List β}
    (h1 : List.Forall₂ R l1 l1') (h2 : List.Forall₂ R l2 l2') :
    List.Forall₂ R (l1 ++ l2) (l1' ++ l2') := by
  induction h1 with
  | nil => exact h2
  | cons hx hrest ih => exact List.Forall₂.cons hx ih

theorem forall2_mem_right {α β : Type} {R : α → β → Prop} {l : List α} {l' : List β}
    (h : List.Forall₂ R l l') {b : β} (hb : b ∈ l') : ∃ a ∈ l, R a b := by
  induction h with
  | nil => cases hb
  | cons hx hrest ih =>
    rcases List.mem_cons.mp hb with hb1 | hb2
    · subst hb1
      exact ⟨_, List.mem_cons_self _ _, hx⟩
    · obtain ⟨a, ha, har⟩ := ih hb2
      exact ⟨a, List.mem_cons_of_mem _ ha, har⟩

/-- The entrywise relation behind `nucleoEq`, on raw member lists. -/
def relEntrada (kv kv' : String × Persona) : Prop :=
  kv.1 = kv'.1 ∧ kv.2.sinHistorial = kv'.2.sinHistorial

theorem nucleoEq_trans {f g h : Familia} (h1 : nucleoEq f g) (h2 : nucleoEq g h) :
    nucleoEq f h := by
  unfold nucleoEq at *
  have aux : ∀ (l1 l2 : List (String × Persona)),
      List.Forall₂ (fun (kv kv' : String × Persona) =>
        kv.1 = kv'.1 ∧ kv.2.sinHistorial = kv'.2.sinHistorial) l1 l2 →
      ∀ (l3 : List (String × Persona)),
      List.Forall₂ (fun (kv kv' : String × Persona) =>
        kv.1 = kv'.1 ∧ kv.2.sinHistorial = kv'.2.sinHistorial) l2 l3 →
      List.Forall₂ (fun (kv kv' : String × Persona) =>
        kv.1 = kv'.1 ∧ kv.2.sinHistorial = kv'.2.sinHistorial) l1 l3 := by
    intro l1 l2 h12
    induction h12 with
    | nil =>
      intro l3 h23
      cases h23
      exact List.Forall₂.nil
    | cons hkv hrest ih =>
      intro l3 h23
      cases h23 with
      | cons hkv2 hrest2 =>
        exact List.Forall₂.cons ⟨hkv.1.trans hkv2.1, hkv.2.trans hkv2.2⟩ (ih _ hrest2)
  exact aux _ _ h1 _ h2

theorem buscarM_forall2 {l l' : List (String × Persona)}
    (h : List.Forall₂ (fun kv kv' => kv.1 = kv'.1 ∧ kv.2.sinHistorial = kv'.2.sinHistorial) l l')
    (c : String) :
    Option.map Persona.sinHistorial (buscarM l' c) =
      Option.map Persona.sinHistorial (buscarM l c) := by
  induction h with
  | nil => rfl
  | cons hkv hrest ih =>
    rename_i kv kv' r r'
    unfold buscarM
    rw [← hkv.1]
    by_cases hc : kv.1 = c
    · rw [if_pos hc, if_pos hc]
      simp [hkv.2]
    · rw [if_neg hc, if_neg hc]
      exact ih

theorem nucleoEq_obtener {f f' : Familia} (h : nucleoEq f f') (c : String) :
    Option.map Persona.sinHistorial (f'.obtener c) =
      Option.map Persona.sinHistorial (f.obtener c) :=
  buscarM_forall2 h c

theorem mapSnd_forall2 {l l' : List (String × Persona)}
    (h : List.Forall₂ (fun kv kv' => kv.1 = kv'.1 ∧ kv.2.sinHistorial = kv'.2.sinHistorial) l l') :
    List.Forall₂ (fun t t' => t.sinHistorial = t'.sinHistorial)
      (l.map Prod.snd) (l'.map Prod.snd) := by
  induction h with
  | nil => exact List.Forall₂.nil
  | cons hkv hrest ih => exact List.Forall₂.cons hkv.2 ih

theorem nucleoEq_todas {f f' : Familia} (h : nucleoEq f f') :
    List.Forall₂ (fun t t' => t.sinHistorial = t'.sinHistorial)
      f.todas_personas f'.todas_personas :=
  mapSnd_forall2 h

theorem esHermanoDe_nucleo {pp pp' q q' : Persona}
    (hpp : pp.sinHistorial = pp'.sinHistorial) (hq : q.sinHistorial = q'.sinHistorial) :
    esHermanoDe pp q = esHermanoDe pp' q' := by
  obtain ⟨hced, _, _, hpad, _, _, _⟩ := sinHistorial_campos hpp
  obtain ⟨hqc, _, hqv, hqp, _, _, _⟩ := sinHistorial_campos hq
  unfold esHermanoDe
  rw [hced, hpad, hqc, hqv, hqp]

theorem nucleoEq_filtro {pp pp' : Persona} (hpp : pp.sinHistorial = pp'.sinHistorial)
    {l l' : List Persona}
    (h : List.Forall₂ (fun t t' => t.sinHistorial = t'.sinHistorial) l l') :
    List.Forall₂ (fun t t' => t.sinHistorial = t'.sinHistorial)
      (l.filter (esHermanoDe pp)) (l'.filter (esHermanoDe pp')) := by
  induction h with
  | nil => exact List.Forall₂.nil
  | cons hq hrest ih =>
    rename_i q q' r r'
    rw [List.filter_cons, List.filter_cons]
    rw [← esHermanoDe_nucleo hpp hq]
    by_cases hb : esHermanoDe pp q = true
    · rw [if_pos hb, if_pos hb]
      exact List.Forall₂.cons hq ih
    · rw [if_neg hb, if_neg hb]
      exact ih

theorem resolverVivo_nucleo {f f' : Familia} (h : nucleoEq f f') (ced : String) :
    Option.map Persona.sinHistorial (resolverVivo f' ced) =
      Option.map Persona.sinHistorial (resolverVivo f ced) := by
  have hres := nucleoEq_obtener h ced
  unfold resolverVivo
  cases hob : f.obtener ced with
  | none =>
    rw [hob] at hres
    cases hob' : f'.obtener ced with
    | none => rfl
    | some ab' =>
      rw [hob'] at hres
      exact absurd hres (by simp)
  | some ab =>
    rw [hob] at hres
    cases hob' : f'.obtener ced with
    | none =>
      rw [hob'] at hres
      exact absurd hres (by simp)
    | some ab' =>
      rw [hob'] at hres
      simp only [Option.map, Option.some.injEq] at hres
      obtain ⟨_, _, habv, _, _, _, _⟩ := sinHistorial_campos hres
      dsimp only
      by_cases hv : ab.vivo = true
      · rw [if_pos hv, if_pos (by rw [habv]; exact hv)]
        simp [hres]
      · rw [if_neg hv, if_neg (by rw [habv]; exact hv)]

theorem nucleoEq_resolver {f f' : Familia} (h : nucleoEq f f') (ceds : List String) :
    List.Forall₂ (fun t t' => t.sinHistorial = t'.sinHistorial)
      (ceds.filterMap (resolverVivo f)) (ceds.filterMap (resolverVivo f')) := by
  induction ceds with
  | nil => exact List.Forall₂.nil
  | cons ced r ih =>
    rw [List.filterMap_cons, List.filterMap_cons]
    have hres := resolverVivo_nucleo h ced
    cases hob : resolverVivo f ced with
    | none =>
      rw [hob] at hres
      cases hob' : resolverVivo f' ced with
      | none => exact ih
      | some ab' =>
        rw [hob'] at hres
        exact absurd hres (by simp)
    | some ab =>
      rw [hob] at hres
      cases hob' : resolverVivo f' ced with
      | none =>
        rw [hob'] at hres
        exact absurd hres (by simp)
      | some ab' =>
        rw [hob'] at hres
        simp only [Option.map, Option.some.injEq] at hres
        exact List.Forall₂.cons hres.symm ih

theorem nucleoEq_candidatosTutor {f f' : Familia} (h : nucleoEq f f')
    {pp pp' : Persona} (hpp : pp.sinHistorial = pp'.sinHistorial) :
    List.Forall₂ (fun t t' => t.sinHistorial = t'.sinHistorial)
      (candidatosTutor f pp) (candidatosTutor f' pp') := by
  unfold candidatosTutor
  have hpad : pp.padres = pp'.padres := (sinHistorial_campos hpp).2.2.2.1
  refine forall2_append (nucleoEq_filtro hpp (nucleoEq_todas h)) ?_
  rw [← hpad]
  exact nucleoEq_resolver h (listaOrdenada pp.padres)

theorem nucleoEq_resolverObtener {f f' : Familia} (h : nucleoEq f f') (ceds : List String) :
    List.Forall₂ (fun t t' => t.sinHistorial = t'.sinHistorial)
      (ceds.filterMap f.obtener) (ceds.filterMap f'.obtener) := by
  induction ceds with
  | nil => exact List.Forall₂.nil
  | cons ced r ih =>
    rw [List.filterMap_cons, List.filterMap_cons]
    have hres := nucleoEq_obtener h ced
    cases hob : f.obtener ced with
    | none =>
      rw [hob] at hres
      cases hob' : f'.obtener ced with
      | none => exact ih
      | some ab' =>
        rw [hob'] at hres
        exact absurd hres (by simp)
    | some ab =>
      rw [hob] at hres
      cases hob' : f'.obtener ced with
      | none =>
        rw [hob'] at hres
        exact absurd hres (by simp)
      | some ab' =>
        rw [hob'] at hres
        simp only [Option.map, Option.some.injEq] at hres
        exact List.Forall₂.cons hres.symm ih

theorem nucleoEq_padresResueltos {f f' : Familia} (h : nucleoEq f f') (p : Persona) :
    List.Forall₂ (fun t t' => t.sinHistorial = t'.sinHistorial)
      (padresResueltos f p) (padresResueltos f' p) :=
  nucleoEq_resolverObtener h (listaOrdenada p.padres)

theorem nucleoEq_candidatosDe_aux {f f' : Familia} (h : nucleoEq f f')
    {pps pps' : List Persona}
    (hp : List.Forall₂ (fun t t' => t.sinHistorial = t'.sinHistorial) pps pps')
    {acc acc' : List Persona}
    (hacc : List.Forall₂ (fun t t' => t.sinHistorial = t'.sinHistorial) acc acc') :
    List.Forall₂ (fun t t' => t.sinHistorial = t'.sinHistorial)
      (pps.foldl (fun a pp => a ++ candidatosTutor f pp) acc)
      (pps'.foldl (fun a pp => a ++ candidatosTutor f' pp) acc') := by
  induction hp generalizing acc acc' with
  | nil => exact hacc
  | cons hx hrest ih =>
    exact ih (forall2_append hacc (nucleoEq_candidatosTutor h hx))

theorem nucleoEq_candidatosDe {f f' : Familia} (h : nucleoEq f f') (p : Persona) :
    List.Forall₂ (fun t t' => t.sinHistorial = t'.sinHistorial)
      (candidatosDe f p) (candidatosDe f' p) :=
  nucleoEq_candidatosDe_aux h (nucleoEq_padresResueltos h p) List.Forall₂.nil

theorem maxPorEdad_foldl_spec (fechaSim : Fecha) (r : List Persona) (q : Persona) :
    (r.foldl (fun best x => if best.edad fechaSim < x.edad fechaSim then x else best) q = q ∨
      r.foldl (fun best x => if best.edad fechaSim < x.edad fechaSim then x else best) q ∈ r) ∧
    q.edad fechaSim ≤
      (r.foldl (fun best x => if best.edad fechaSim < x.edad fechaSim then x else best) q).edad
        fechaSim ∧
    ∀ x ∈ r, x.edad fechaSim ≤
      (r.foldl (fun best x => if best.edad fechaSim < x.edad fechaSim then x else best) q).edad
        fechaSim := by
  induction r generalizing q with
  | nil =>
    refine ⟨Or.inl rfl, le_refl _, ?_⟩
    intro x hx
    cases hx
  | cons x t ih =>
    rw [List.foldl_cons]
    by_cases hcmp : q.edad fechaSim < x.edad fechaSim
    · rw [if_pos hcmp]
      obtain ⟨hmem, hinit, hall⟩ := ih x
      refine ⟨?_, ?_, ?_⟩
      · rcases hmem with hm | hm
        · exact Or.inr (by rw [hm]; exact List.mem_cons_self _ _)
        · exact Or.inr (List.mem_cons_of_mem _ hm)
      · omega
      · intro y hy
        rcases List.mem_cons.mp hy with hy1 | hy2
        · subst hy1; exact hinit
        · exact hall y hy2
    · rw [if_neg hcmp]
      obtain ⟨hmem, hinit, hall⟩ := ih q
      refine ⟨?_, hinit, ?_⟩
      · rcases hmem with hm | hm
        · exact Or.inl hm
        · exact Or.inr (List.mem_cons_of_mem _ hm)
      · intro y hy
        rcases List.mem_cons.mp hy with hy1 | hy2
        · subst hy1; omega
        · exact hall y hy2

theorem maxPorEdad_spec (fechaSim : Fecha) {l : List Persona} (h : l ≠ []) :
    ∃ t, maxPorEdad fechaSim l = some t ∧ t ∈ l ∧
      ∀ x ∈ l, x.edad fechaSim ≤ t.edad fechaSim := by
  cases l with
  | nil => exact absurd rfl h
  | cons q r =>
    obtain ⟨hmem, hinit, hall⟩ := maxPorEdad_foldl_spec fechaSim r q
    refine ⟨_, rfl, ?_, ?_⟩
    · rcases hmem with hm | hm
      · rw [hm]; exact List.mem_cons_self _ _
      · exact List.mem_cons_of_mem _ hm
    · intro x hx
      rcases List.mem_cons.mp hx with hx1 | hx2
      · subst hx1; exact hinit
      · exact hall x hx2

theorem maxPorEdad_nucleo_foldl (fechaSim : Fecha) {r r' : List Persona}
    (h : List.Forall₂ (fun t t' => t.sinHistorial = t'.sinHistorial) r r')
    {q q' : Persona} (hq : q.sinHistorial = q'.sinHistorial) :
    (r.foldl (fun best x => if best.edad fechaSim < x.edad fechaSim then x else best)
        q).sinHistorial =
      (r'.foldl (fun best x => if best.edad fechaSim < x.edad fechaSim then x else best)
        q').sinHistorial := by
  induction h generalizing q q' with
  | nil => exact hq
  | cons hx hrest ih =>
    rename_i x x' t t'
    rw [List.foldl_cons, List.foldl_cons]
    have hedq := (sinHistorial_campos hq).2.2.2.2.2.2 fechaSim
    have hedx := (sinHistorial_campos hx).2.2.2.2.2.2 fechaSim
    by_cases hcmp : q.edad fechaSim < x.edad fechaSim
    · rw [if_pos hcmp, if_pos (by rw [← hedq, ← hedx]; exact hcmp)]
      exact ih hx
    · rw [if_neg hcmp, if_neg (by rw [← hedq, ← hedx]; exact hcmp)]
      exact ih hq

theorem maxPorEdad_nucleo (fechaSim : Fecha) {l l' : List Persona}
    (h : List.Forall₂ (fun t t' => t.sinHistorial = t'.sinHistorial) l l') :
    Option.map Persona.sinHistorial (maxPorEdad fechaSim l) =
      Option.map Persona.sinHistorial (maxPorEdad fechaSim l') := by
  cases h with
  | nil => rfl
  | cons hx hrest =>
    unfold maxPorEdad
    simp only [Option.map, Option.some.injEq]
    exact maxPorEdad_nucleo_foldl fechaSim hrest hx

theorem forall2_entrada_refl (l : List (String × Persona)) :
    List.Forall₂ (fun kv kv' => kv.1 = kv'.1 ∧ kv.2.sinHistorial = kv'.2.sinHistorial) l l := by
  induction l with
  | nil => exact List.Forall₂.nil
  | cons kv r ih => exact List.Forall₂.cons ⟨rfl, rfl⟩ ih

theorem modifM_evento_forall2 (l : List (String × Persona)) (k : String)
    (d : String) (hoy : Fecha) :
    List.Forall₂ (fun kv kv' => kv.1 = kv'.1 ∧ kv.2.sinHistorial = kv'.2.sinHistorial)
      l (modifM l k (fun q => q.registrar_evento d hoy)) := by
  induction l with
  | nil => exact List.Forall₂.nil
  | cons kv r ih =>
    obtain ⟨c, p⟩ := kv
    unfold modifM
    by_cases hc : c = k
    · rw [if_pos hc]
      exact List.Forall₂.cons ⟨rfl, (sinHistorial_evento p d hoy).symm⟩ (forall2_entrada_refl r)
    · rw [if_neg hc]
      exact List.Forall₂.cons ⟨rfl, rfl⟩ ih

theorem pasoTutoria_nucleo (fechaSim hoy : Fecha) (f : Familia) (k : String) :
    nucleoEq f (pasoTutoria fechaSim hoy f k) := by
  unfold pasoTutoria
  cases hob : f.obtener k with
  | none => exact nucleoEq_refl f
  | some p =>
    dsimp only
    split
    · exact nucleoEq_refl f
    · split
      · split
        · split
          · exact modifM_evento_forall2 f.miembros k _ hoy
          · exact nucleoEq_refl f
        · exact nucleoEq_refl f
      · exact nucleoEq_refl f

theorem pasoTutoria_obtener_ne (fechaSim hoy : Fecha) (f : Familia) (k c : String)
    (hne : c ≠ k) :
    (pasoTutoria fechaSim hoy f k).obtener c = f.obtener c := by
  unfold pasoTutoria
  cases hob : f.obtener k with
  | none => rfl
  | some p =>
    dsimp only
    split
    · rfl
    · split
      · split
        · split
          · rw [obtener_modifMiembro, if_neg hne]
          · rfl
        · rfl
      · rfl

theorem foldl_pasoTutoria_nucleo (fechaSim hoy : Fecha) (L : List String) (f : Familia) :
    nucleoEq f (L.foldl (pasoTutoria fechaSim hoy) f) := by
  induction L generalizing f with
  | nil => exact nucleoEq_refl f
  | cons k r ih =>
    rw [List.foldl_cons]
    exact nucleoEq_trans (pasoTutoria_nucleo fechaSim hoy f k) (ih _)

theorem foldl_pasoTutoria_obtener_notmem (fechaSim hoy : Fecha) (L : List String)
    (f : Familia) (k : String) (hk : k ∉ L) :
    (L.foldl (pasoTutoria fechaSim hoy) f).obtener k = f.obtener k := by
  induction L generalizing f with
  | nil => rfl
  | cons c r ih =>
    rw [List.foldl_cons]
    have hk1 : k ≠ c := fun hh => hk (hh ▸ List.mem_cons_self _ _)
    have hk2 : k ∉ r := fun hh => hk (List.mem_cons_of_mem _ hh)
    rw [ih _ hk2, pasoTutoria_obtener_ne fechaSim hoy f c k hk1]

theorem pasoTutoria_en_menor (fechaSim hoy : Fecha) (f : Familia) (k : String) (p : Persona)
    (hk : f.obtener k = some p) (hv : p.vivo = true) (hage : p.edad fechaSim < 18)
    (hpne : p.padres ≠ ∅)
    (hall : ((listaOrdenada p.padres).map f.obtener).all (fun o =>
      match o with | some pp => !pp.vivo | none => false) = true)
    (t : Persona) (hmax : maxPorEdad fechaSim (candidatosDe f p) = some t) :
    (pasoTutoria fechaSim hoy f k).obtener k =
      some (p.registrar_evento ("Tutor legal asignado: " ++ t.nombre) hoy) := by
  unfold pasoTutoria
  rw [hk]
  dsimp only
  rw [if_neg (by simp [hv]), if_pos hage, if_pos ⟨hpne, hall⟩, hmax]
  rw [obtener_modifMiembro, if_pos rfl, hk]
  rfl

theorem buscarM_mem_keys {α : Type} {l : List (String × α)} {k : String} {v : α}
    (h : buscarM l k = some v) : k ∈ l.map Prod.fst := by
  induction l with
  | nil => simp [buscarM] at h
  | cons kv r ih =>
    obtain ⟨c, p⟩ := kv
    unfold buscarM at h
    by_cases hc : c = k
    · subst hc
      exact List.mem_map.mpr ⟨(c, p), List.mem_cons_self _ _, rfl⟩
    · rw [if_neg hc] at h
      exact List.mem_cons_of_mem _ (ih h)

/-- C5 amended: for a living minor (under 18) with a non-empty parent set
whose every parent IDENTIFIER resolves to a (deceased) member — the source's
`all(pp and not pp.vivo)`, which fails when any identifier dangles — if the
candidate list is non-empty, the guardian pass appends exactly one
"Tutor legal asignado" entry to the minor naming a candidate of maximal
current age, and no member's parent/child/partner sets change. -/
theorem C5_tutoria_enmendada (fam : Familia) (fechaSim hoy : Fecha) (k : String) (p : Persona)
    (hnd : (fam.miembros.map Prod.fst).Nodup)
    (hk : fam.obtener k = some p)
    (hv : p.vivo = true)
    (hage : p.edad fechaSim < 18)
    (hpne : p.padres ≠ ∅)
    (hres : ∀ c ∈ p.padres, ∃ q, fam.obtener c = some q ∧ q.vivo = false)
    (hcand : candidatosDe fam p ≠ []) :
    (∃ t, t ∈ candidatosDe fam p ∧
      (∀ x ∈ candidatosDe fam p, x.edad fechaSim ≤ t.edad fechaSim) ∧
      ((reasignar_tutoria_menores fam fechaSim hoy).obtener k).map Persona.historial =
        some (p.historial ++ [(hoy.year, "Tutor legal asignado: " ++ t.nombre)])) ∧
    (∀ c q q', fam.obtener c = some q →
      (reasignar_tutoria_menores fam fechaSim hoy).obtener c = some q' →
      q'.padres = q.padres ∧ q'.hijos = q.hijos ∧ q'.parejas = q.parejas) := by
  have hfull : nucleoEq fam (reasignar_tutoria_menores fam fechaSim hoy) :=
    foldl_pasoTutoria_nucleo fechaSim hoy _ fam
  constructor
  · -- the guardian entry
    obtain ⟨L1, L2, hsplit⟩ := List.append_of_mem (buscarM_mem_keys hk)
    rw [hsplit] at hnd
    have hk1 : k ∉ L1 := by
      intro hh
      have hdis := (List.nodup_append.mp hnd).2.2
      exact hdis hh (List.mem_cons_self _ _)
    have hk2 : k ∉ L2 := by
      have := (List.nodup_append.mp hnd).2.1
      exact (List.nodup_cons.mp this).1
    unfold reasignar_tutoria_menores
    rw [hsplit, List.foldl_append, List.foldl_cons]
    have hN1 : nucleoEq fam (L1.foldl (pasoTutoria fechaSim hoy) fam) :=
      foldl_pasoTutoria_nucleo fechaSim hoy L1 fam
    have hobt1 : (L1.foldl (pasoTutoria fechaSim hoy) fam).obtener k = some p := by
      rw [foldl_pasoTutoria_obtener_notmem fechaSim hoy L1 fam k hk1]
      exact hk
    have hall1 : (((listaOrdenada p.padres).map
        (L1.foldl (pasoTutoria fechaSim hoy) fam).obtener).all (fun o =>
          match o with | some pp => !pp.vivo | none => false)) = true := by
      rw [List.all_eq_true]
      intro o ho
      obtain ⟨c, hc, rfl⟩ := List.mem_map.mp ho
      have hcp : c ∈ p.padres := (mem_listaOrdenada _ _).mp hc
      obtain ⟨q, hq, hqd⟩ := hres c hcp
      have hmapa := nucleoEq_obtener hN1 c
      rw [hq] at hmapa
      cases hob1 : (L1.foldl (pasoTutoria fechaSim hoy) fam).obtener c with
      | none =>
        rw [hob1] at hmapa
        exact absurd hmapa (by simp)
      | some q1 =>
        rw [hob1] at hmapa
        simp only [Option.map, Option.some.injEq] at hmapa
        have hviv := (sinHistorial_campos hmapa).2.2.1
        show (match some q1 with | some pp => !pp.vivo | none => false) = true
        dsimp only
        rw [hviv, hqd]
        rfl
    have hcandF := nucleoEq_candidatosDe hN1 p
    have hcne1 : candidatosDe (L1.foldl (pasoTutoria fechaSim hoy) fam) p ≠ [] := by
      intro hnil
      have hlen := List.Forall₂.length_eq hcandF
      rw [hnil] at hlen
      simp only [List.length_nil] at hlen
      exact hcand (List.length_eq_zero.mp hlen)
    obtain ⟨t1, hmax1, hmem1, hallmax1⟩ := maxPorEdad_spec fechaSim hcne1
    obtain ⟨t0, hmax0, hmem0, hallmax0⟩ := maxPorEdad_spec fechaSim hcand
    have hmapmax := maxPorEdad_nucleo fechaSim hcandF
    rw [hmax0, hmax1] at hmapmax
    simp only [Option.map, Option.some.injEq] at hmapmax
    have hnom : t0.nombre = t1.nombre := (sinHistorial_campos hmapmax).2.1
    have hstep := pasoTutoria_en_menor fechaSim hoy
      (L1.foldl (pasoTutoria fechaSim hoy) fam) k p hobt1 hv hage hpne hall1 t1 hmax1
    refine ⟨t0, hmem0, hallmax0, ?_⟩
    rw [foldl_pasoTutoria_obtener_notmem fechaSim hoy L2 _ k hk2, hstep]
    simp [Persona.registrar_evento, hnom]
  · -- no parent/child/partner set changes anywhere
    intro c q q' hq hq'
    have hmapa := nucleoEq_obtener hfull c
    rw [hq, hq'] at hmapa
    simp only [Option.map, Option.some.injEq] at hmapa
    obtain ⟨_, _, _, hpad, hhij, hpar, _⟩ := sinHistorial_campos hmapa
    exact ⟨hpad, hhij, hpar⟩

/-- Minor for the C5 witness: the only parent identifier resolves to the
deceased `personaD5`, whose mother `personaG5` lives. -/
def personaM5w : Persona :=
  { cedula := "m", nombre := "Niño", fecha_nacimiento := ⟨2015, 1, 1⟩,
    genero := "Otro", provincia := "San José", padres := {"d1"},
    afinidades := {"Arte", "Lectura"} }

/-- Family for the C5 witness (all parent identifiers resolve). -/
def famC5w : Familia :=
  { id_familia := "f", nombre := "F",
    miembros := [("g", personaG5), ("d1", personaD5), ("m", personaM5w)] }

/-- Witness for the amended C5: the pass appends the guardian entry naming
the grandmother (the oldest — and only — candidate). -/
theorem C5_tutoria_enmendada_witness :
    ((reasignar_tutoria_menores famC5w ⟨2025, 6, 1⟩ ⟨2025, 6, 1⟩).obtener "m").map
      Persona.historial = some [(2025, "Tutor legal asignado: Abuela")] := by
  obtain ⟨⟨t, hmem, hmax, hev⟩, hframe⟩ :=
    C5_tutoria_enmendada famC5w ⟨2025, 6, 1⟩ ⟨2025, 6, 1⟩ "m" personaM5w
      (by decide) (by rfl) (by decide) (by decide) (by decide)
      (by
        intro c hc
        rw [Finset.mem_singleton.mp hc]
        exact ⟨personaD5, by rfl, by rfl⟩)
      (by decide)
  rw [hev]
  have hct : candidatosDe famC5w personaM5w = [personaG5] := by decide
  have ht : t = personaG5 := by
    rw [hct] at hmem
    simpa using hmem
  rw [ht]
  decide

-- ------------------------------- claim C1 -------------------------------

/-- `ArbolGenealogico.gestionar_viudez`: for each (living) partner of the
newly deceased person, combine the four in-place assignments — status,
partner-set removal, history entry (dated at the real-world `hoy()`), and
`max(0, salud - 10)` (truncated `Nat` subtraction).  The set
`persona_fallecida.parejas` is enumerated in a fixed order; the per-partner
updates touch distinct entries, so the order does not affect the result. -/
def gestionar_viudez (fam : Familia) (persona_fallecida : Persona) (hoy : Fecha) : Familia :=
  (listaOrdenada persona_fallecida.parejas).foldl (fun f ced =>
    match f.obtener ced with
    | none => f
    | some pareja =>
      if pareja.vivo then
        modifMiembro f ced (fun q =>
          { q with estado_civil := "Viudo(a)",
                   parejas := q.parejas.erase persona_fallecida.cedula,
                   historial := q.historial ++ [(hoy.year, "Quedó viudo(a)")],
                   salud_emocional := q.salud_emocional - 10 })
      else f) fam

/-- Oracle for one simulation tick: the per-person death draw
(`random.random() < base`; both outcomes are realisable whenever the death
probability lies strictly between 0 and 1), the shuffled list of living
cédulas (phase 3), the 25% union-acceptance draws, the 15% birth draws and
the per-birth randomness.  Leaving `vivosBarajados` unconstrained
over-approximates the real shuffles, which is sound for invariants. -/
structure OraculoTick where
  muere : String → Bool
  vivosBarajados : List String
  acepta : Nat → Bool
  nace : Nat → Bool
  bebes : Nat → OraculoBebe

/-- Phase 2 of the tick: deaths and widowhood, iterating a snapshot of the
member list and re-reading the mutated state. -/
def pasoMuertes (fam : Familia) (fechaSim hoy : Fecha) (muere : String → Bool) : Familia :=
  (fam.miembros.map Prod.fst).foldl (fun f k =>
    match f.obtener k with
    | none => f
    | some p =>
      if ¬ p.vivo then f
      else if muere k then
        let f1 := modifMiembro f k (fun q => q.marcar_fallecido fechaSim hoy)
        match f1.obtener k with
        | some muerto => gestionar_viudez f1 muerto hoy
        | none => f1
      else f) fam

/-- Consecutive disjoint pairs, as `for i in range(0, len(vivos), 2)` with
`vivos[i], vivos[i+1]` (a trailing odd element is skipped). -/
def emparejar : List String → List (String × String)
  | c1 :: c2 :: resto => (c1, c2) :: emparejar resto
  | _ => []

/-- Body of one phase-3 iteration: statuses must both allow re-pairing, then
compatibility and the 25% draw gate `unite`. -/
def cuerpoUnion (idf : String) (hoy : Fecha) (acepta : Nat → Bool) (i : Nat)
    (arb : ArbolGenealogico) (par : String × String) : ArbolGenealogico :=
  match (arb.get_familia idf).bind (fun f => f.obtener par.1),
        (arb.get_familia idf).bind (fun f => f.obtener par.2) with
  | some a, some b =>
    if (a.estado_civil = "Soltero(a)" ∨ a.estado_civil = "Divorciado(a)" ∨
          a.estado_civil = "Viudo(a)") ∧
       (b.estado_civil = "Soltero(a)" ∨ b.estado_civil = "Divorciado(a)" ∨
          b.estado_civil = "Viudo(a)") then
      if a.es_compatible_para_union b hoy ∧ acepta i then
        (arb.unir_pareja idf a.cedula b.cedula hoy).2
      else arb
    else arb
  | _, _ => arb

/-- Phase 3 of the tick. -/
def pasoUniones (idf : String) (hoy : Fecha) (acepta : Nat → Bool)
    (vivos : List String) (arb : ArbolGenealogico) : ArbolGenealogico :=
  ((emparejar vivos).foldl
    (fun (st : Nat × ArbolGenealogico) par => (st.1 + 1, cuerpoUnion idf hoy acepta st.1 st.2 par))
    (0, arb)).2

/-- Python string `<` (codepoint-lexicographic): strict part of `cadLe`. -/
def cadLt (s t : String) : Bool := cadLe s t && !(s = t : Bool)

/-- The snapshot of distinct partner pairs collected before phase 4:
`(p.cedula, ced_par)` for `ced_par` in `p.parejas` with `p.cedula < ced_par`;
pairs whose second member does not resolve are dropped here, exactly the
pairs the loop would skip via `if not a or not b`. -/
def parejasDe (fam : Familia) : List (String × String) :=
  fam.todas_personas.foldl (fun acc p =>
    acc ++ ((listaOrdenada p.parejas).filterMap (fun ced_par =>
      if cadLt p.cedula ced_par then
        if (fam.obtener ced_par).isSome then some (p.cedula, ced_par) else none
      else none))) []

/-- Body of one phase-4 iteration; the `Bool` is false once a cédula
collision aborted the tick (the uncaught `ValueError` propagates, skipping
the remaining births and the guardian pass). -/
def cuerpoNacimiento (idf : String) (hoy : Fecha) (nace : Nat → Bool)
    (bebes : Nat → OraculoBebe) (st : Nat × ArbolGenealogico × Bool)
    (par : String × String) : Nat × ArbolGenealogico × Bool :=
  match st with
  | (i, arb, ok) =>
    if ¬ ok then (i, arb, false)
    else
      match (arb.get_familia idf).bind (fun f => f.obtener par.1),
            (arb.get_familia idf).bind (fun f => f.obtener par.2) with
      | some a, some b =>
        if a.edad arb.fecha_simulada ≤ 45 ∧ b.edad arb.fecha_simulada ≤ 45 then
          if nace i then
            match arb.registrar_nacimiento_de_pareja idf par.1 par.2 (bebes i) hoy with
            | Except.ok (_, arb') => (i + 1, arb', true)
            | Except.error _ => (i + 1, arb, false)
          else (i + 1, arb, true)
        else (i + 1, arb, true)
      | _, _ => (i + 1, arb, true)

/-- Phase 4 of the tick. -/
def pasoNacimientos (idf : String) (hoy : Fecha) (nace : Nat → Bool)
    (bebes : Nat → OraculoBebe) (pares : List (String × String))
    (arb : ArbolGenealogico) : ArbolGenealogico × Bool :=
  let fin := pares.foldl (cuerpoNacimiento idf hoy nace bebes) (0, arb, true)
  (fin.2.1, fin.2.2)

/-- `ArbolGenealogico.evento_cada_10s`: advance the clock one year, run the
death/widowhood pass, the shuffled pairing pass, the birth pass over the
pre-collected partner pairs, and (unless a birth aborted the tick) the
guardian-reassignment pass. -/
def ArbolGenealogico.evento_cada_10s (arb : ArbolGenealogico) (id_familia : String)
    (ω : OraculoTick) (hoy : Fecha) : ArbolGenealogico :=
  match arb.get_familia id_familia with
  | none => arb
  | some _ =>
    let arb1 := arb.tick_diario 365
    let arb2 :=
      match arb1.get_familia id_familia with
      | none => arb1
      | some fam1 =>
        setFamilia arb1 id_familia (pasoMuertes fam1 arb1.fecha_simulada hoy ω.muere)
    let arb3 := pasoUniones id_familia hoy ω.acepta ω.vivosBarajados arb2
    let resultado :=
      match arb3.get_familia id_familia with
      | none => (arb3, true)
      | some fam3 => pasoNacimientos id_familia hoy ω.nace ω.bebes (parejasDe fam3) arb3
    if resultado.2 then
      match resultado.1.get_familia id_familia with
      | none => resultado.1
      | some fam4 =>
        setFamilia resultado.1 id_familia
          (reasignar_tutoria_menores fam4 resultado.1.fecha_simulada hoy)
    else resultado.1

/-- The engine states reachable from an empty registry by the operations the
UI drives: family/person registration (persons enter with the dataclass
defaults: no relations, no death date), unions, marriages, parent links,
births from unions, and simulation ticks.  Failed registrations raise before
mutating, leaving the state unchanged, so they add no states. -/
inductive Alcanzable : ArbolGenealogico → Prop where
  | inicial (hoy : Fecha) : Alcanzable { familias := [], fecha_simulada := hoy }
  | crear {s s' : ArbolGenealogico} {idf nom : String} :
      Alcanzable s → s.crear_familia idf nom = Except.ok s' → Alcanzable s'
  | agregar {s s' : ArbolGenealogico} {idf : String} {p : Persona} {af1 af2 : String} :
      Alcanzable s →
      p.padres = ∅ → p.hijos = ∅ → p.parejas = ∅ → p.fecha_fallecimiento = none →
      af1 ∈ AFINIDADES → af2 ∈ AFINIDADES → af1 ≠ af2 →
      s.agregar_persona idf p af1 af2 = Except.ok s' → Alcanzable s'
  | unir {s : ArbolGenealogico} {idf c1 c2 : String} {hoy : Fecha} :
      Alcanzable s → Alcanzable (s.unir_pareja idf c1 c2 hoy).2
  | matrimonio {s : ArbolGenealogico} {idf c1 c2 : String} {hoy : Fecha} :
      Alcanzable s → Alcanzable (s.registrar_matrimonio idf c1 c2 hoy).2
  | padreHijo {s : ArbolGenealogico} {idf cp ch : String} :
      Alcanzable s → Alcanzable (s.registrar_padre_hijo idf cp ch).2
  | nacimiento {s s' : ArbolGenealogico} {idf c1 c2 : String} {ω : OraculoBebe} {hoy : Fecha}
      {r : Option Persona} :
      Alcanzable s → ω.valido →
      s.registrar_nacimiento_de_pareja idf c1 c2 ω hoy = Except.ok (r, s') → Alcanzable s'
  | tick {s : ArbolGenealogico} {idf : String} {ω : OraculoTick} {hoy : Fecha} :
      Alcanzable s → (∀ i, (ω.bebes i).valido) →
      Alcanzable (s.evento_cada_10s idf ω hoy)

/-- The partner-edge well-formedness bundle: stored key consistency, partner
identifiers always resolve, and partner edges mutual between living
members. -/
def ParejasBien (fam : Familia) : Prop :=
  (∀ c p, fam.obtener c = some p → p.cedula = c) ∧
  (∀ c p, fam.obtener c = some p → ∀ c' ∈ p.parejas, (fam.obtener c').isSome = true) ∧
  (∀ c1 c2 p1 p2, fam.obtener c1 = some p1 → fam.obtener c2 = some p2 →
    p1.vivo = true → p2.vivo = true → (c2 ∈ p1.parejas ↔ c1 ∈ p2.parejas))

/-- Every registered family is well-formed. -/
def ArbolBien (s : ArbolGenealogico) : Prop :=
  ∀ idf fam, s.get_familia idf = some fam → ParejasBien fam

theorem isSome_modifMiembro (fam : Familia) (k c : String) (f : Persona → Persona) :
    ((modifMiembro fam k f).obtener c).isSome = (fam.obtener c).isSome := by
  rw [obtener_modifMiembro]
  by_cases hck : c = k
  · subst hck
    rw [if_pos rfl]
    cases h : fam.obtener c <;> simp [h]
  · rw [if_neg hck]

theorem obtener_funcional {fam : Familia} {c : String} {p q : Persona}
    (hp : fam.obtener c = some p) (hq : fam.obtener c = some q) : p = q := by
  rw [hp] at hq
  exact (Option.some.injEq _ _).mp hq

/-- Mutations that keep the cédula and partner set, and never resurrect a
person, preserve the bundle. -/
theorem parejasBien_modif_seguro (fam : Familia) (k : String) (f : Persona → Persona)
    (hced : ∀ q, (f q).cedula = q.cedula)
    (hpar : ∀ q, (f q).parejas = q.parejas)
    (hviv : ∀ q, (f q).vivo = true → q.vivo = true)
    (h : ParejasBien fam) : ParejasBien (modifMiembro fam k f) := by
  obtain ⟨hc, hd, hm⟩ := h
  have fetch : ∀ c p, (modifMiembro fam k f).obtener c = some p →
      ∃ p0, fam.obtener c = some p0 ∧ p.cedula = p0.cedula ∧ p.parejas = p0.parejas ∧
        (p.vivo = true → p0.vivo = true) := by
    intro c p hp
    rw [obtener_modifMiembro] at hp
    by_cases hck : c = k
    · rw [if_pos hck] at hp
      obtain ⟨p0, hp0, hfp⟩ := Option.map_eq_some'.mp hp
      subst hfp
      exact ⟨p0, hck ▸ hp0, hced p0, hpar p0, hviv p0⟩
    · rw [if_neg hck] at hp
      exact ⟨p, hp, rfl, rfl, fun hh => hh⟩
  refine ⟨?_, ?_, ?_⟩
  · intro c p hp
    obtain ⟨p0, hp0, hco, _, _⟩ := fetch c p hp
    rw [hco]
    exact hc _ _ hp0
  · intro c p hp c' hcp
    obtain ⟨p0, hp0, _, hpo, _⟩ := fetch c p hp
    rw [hpo] at hcp
    rw [isSome_modifMiembro]
    exact hd _ _ hp0 _ hcp
  · intro c1 c2 p1 p2 h1 h2 v1 v2
    obtain ⟨q1, hq1, _, hpar1, hv1⟩ := fetch c1 p1 h1
    obtain ⟨q2, hq2, _, hpar2, hv2⟩ := fetch c2 p2 h2
    rw [hpar1, hpar2]
    exact hm _ _ _ _ hq1 hq2 (hv1 v1) (hv2 v2)

theorem arbolBien_set {s : ArbolGenealogico} {idf : String} {fam' : Familia}
    (hA : ArbolBien s) (hf : ParejasBien fam') : ArbolBien (setFamilia s idf fam') := by
  intro j g hg
  rw [get_setFamilia] at hg
  by_cases hj : j = idf
  · rw [if_pos hj] at hg
    obtain ⟨g0, _, hgg⟩ := Option.map_eq_some'.mp hg
    rw [← hgg]
    exact hf
  · rw [if_neg hj] at hg
    exact hA _ _ hg

theorem compatible_vivos {a b : Persona} {hoy : Fecha}
    (h : a.es_compatible_para_union b hoy = true) : a.vivo = true ∧ b.vivo = true := by
  unfold Persona.es_compatible_para_union at h
  by_cases hv : ¬ a.vivo ∨ ¬ b.vivo
  · rw [if_pos hv] at h
    exact absurd h (by simp)
  · constructor
    · by_cases ha : a.vivo = true
      · exact ha
      · exact absurd (Or.inl (by simpa using ha)) hv
    · by_cases hb : b.vivo = true
      · exact hb
      · exact absurd (Or.inr (by simpa using hb)) hv


/-- Adding the mutual partner edge between two living members preserves the
bundle. -/
theorem parejasBien_union_insert (fam : Familia) (c1 c2 : String) (a b : Persona)
    (ha : fam.obtener c1 = some a) (hb : fam.obtener c2 = some b)
    (h : ParejasBien fam) :
    ParejasBien (modifMiembro (modifMiembro fam c1
      (fun q => { q with parejas := insert b.cedula q.parejas })) c2
      (fun q => { q with parejas := insert a.cedula q.parejas })) := by
  obtain ⟨hc, hd, hm⟩ := h
  have hac : a.cedula = c1 := hc _ _ ha
  have hbc : b.cedula = c2 := hc _ _ hb
  -- each member of the result comes from an original member with the same
  -- cédula and vital status, whose partner set grew by at most the two new
  -- edge endpoints
  have desc : ∀ x p, (modifMiembro (modifMiembro fam c1
      (fun q => { q with parejas := insert b.cedula q.parejas })) c2
      (fun q => { q with parejas := insert a.cedula q.parejas })).obtener x = some p →
      ∃ q, fam.obtener x = some q ∧ p.cedula = q.cedula ∧ p.vivo = q.vivo ∧
        ∀ y, (y ∈ p.parejas ↔ y ∈ q.parejas ∨ (x = c1 ∧ y = c2) ∨ (x = c2 ∧ y = c1)) := by
    intro x p hp
    rw [obtener_modifMiembro, obtener_modifMiembro] at hp
    by_cases hx2 : x = c2
    · rw [if_pos hx2] at hp
      by_cases hc21 : c2 = c1
      · rw [if_pos hc21, ha] at hp
        simp only [Option.map, Option.some.injEq] at hp
        have hx1 : x = c1 := hx2.trans hc21
        refine ⟨a, by rw [hx1]; exact ha, ?_, ?_, ?_⟩
        · rw [← hp]
        · rw [← hp]
          rfl
        · intro y
          rw [← hp]
          show y ∈ insert a.cedula (insert b.cedula a.parejas) ↔ _
          simp only [Finset.mem_insert, hac, hbc]
          constructor
          · rintro (h1 | h2 | h3)
            · exact Or.inr (Or.inr ⟨hx2, h1⟩)
            · exact Or.inr (Or.inl ⟨hx1, h2⟩)
            · exact Or.inl h3
          · rintro (h1 | ⟨_, h2⟩ | ⟨_, h3⟩)
            · exact Or.inr (Or.inr h1)
            · exact Or.inr (Or.inl h2)
            · exact Or.inl h3
      · rw [if_neg hc21, hb] at hp
        simp only [Option.map, Option.some.injEq] at hp
        refine ⟨b, by rw [hx2]; exact hb, ?_, ?_, ?_⟩
        · rw [← hp]
        · rw [← hp]
          rfl
        · intro y
          rw [← hp]
          show y ∈ insert a.cedula b.parejas ↔ _
          simp only [Finset.mem_insert, hac]
          constructor
          · rintro (h1 | h2)
            · exact Or.inr (Or.inr ⟨hx2, h1⟩)
            · exact Or.inl h2
          · rintro (h1 | ⟨hx1, _⟩ | ⟨_, h3⟩)
            · exact Or.inr h1
            · exact absurd (hx1 ▸ hx2) (fun hh => hc21 hh.symm)
            · exact Or.inl h3
    · rw [if_neg hx2] at hp
      rw [obtener_modifMiembro] at hp
      by_cases hx1 : x = c1
      · rw [if_pos hx1, ha] at hp
        simp only [Option.map, Option.some.injEq] at hp
        refine ⟨a, by rw [hx1]; exact ha, ?_, ?_, ?_⟩
        · rw [← hp]
        · rw [← hp]
          rfl
        · intro y
          rw [← hp]
          show y ∈ insert b.cedula a.parejas ↔ _
          simp only [Finset.mem_insert, hbc]
          constructor
          · rintro (h1 | h2)
            · exact Or.inr (Or.inl ⟨hx1, h1⟩)
            · exact Or.inl h2
          · rintro (h1 | ⟨_, h2⟩ | ⟨hx2', _⟩)
            · exact Or.inr h1
            · exact Or.inl h2
            · exact absurd hx2' hx2
      · rw [if_neg hx1] at hp
        refine ⟨p, hp, rfl, rfl, ?_⟩
        intro y
        constructor
        · intro hh
          exact Or.inl hh
        · rintro (h1 | ⟨hx1', _⟩ | ⟨hx2', _⟩)
          · exact h1
          · exact absurd hx1' hx1
          · exact absurd hx2' hx2
  have hdomEq : ∀ j, (((modifMiembro (modifMiembro fam c1
      (fun q => { q with parejas := insert b.cedula q.parejas })) c2
      (fun q => { q with parejas := insert a.cedula q.parejas })).obtener j).isSome) =
      ((fam.obtener j).isSome) := by
    intro j
    rw [isSome_modifMiembro, isSome_modifMiembro]
  refine ⟨?_, ?_, ?_⟩
  · intro x p hp
    obtain ⟨q, hq, hco, _, _⟩ := desc x p hp
    rw [hco]
    exact hc _ _ hq
  · intro x p hp c' hcp
    obtain ⟨q, hq, _, _, hchar⟩ := desc x p hp
    rw [hdomEq]
    rcases (hchar c').mp hcp with h1 | ⟨_, h2⟩ | ⟨_, h3⟩
    · exact hd _ _ hq _ h1
    · rw [h2, hb]
      rfl
    · rw [h3, ha]
      rfl
  · intro x y p1 p2 hx hy v1 v2
    obtain ⟨q1, hq1, _, hviv1, hchar1⟩ := desc x p1 hx
    obtain ⟨q2, hq2, _, hviv2, hchar2⟩ := desc y p2 hy
    have hold : y ∈ q1.parejas ↔ x ∈ q2.parejas :=
      hm x y q1 q2 hq1 hq2 (hviv1 ▸ v1) (hviv2 ▸ v2)
    rw [hchar1 y, hchar2 x]
    constructor
    · rintro (h1 | ⟨hh1, hh2⟩ | ⟨hh1, hh2⟩)
      · exact Or.inl (hold.mp h1)
      · exact Or.inr (Or.inr ⟨hh2, hh1⟩)
      · exact Or.inr (Or.inl ⟨hh2, hh1⟩)
    · rintro (h1 | ⟨hh1, hh2⟩ | ⟨hh1, hh2⟩)
      · exact Or.inl (hold.mpr h1)
      · exact Or.inr (Or.inr ⟨hh2, hh1⟩)
      · exact Or.inr (Or.inl ⟨hh2, hh1⟩)

theorem marcar_campos (q : Persona) (fd hoy : Fecha) :
    (q.marcar_fallecido fd hoy).cedula = q.cedula ∧
    (q.marcar_fallecido fd hoy).parejas = q.parejas ∧
    ((q.marcar_fallecido fd hoy).vivo = true → q.vivo = true) := by
  unfold Persona.marcar_fallecido Persona.registrar_evento
  by_cases hdead : q.fecha_fallecimiento.isSome
  · rw [if_pos hdead]
    exact ⟨rfl, rfl, fun hh => hh⟩
  · rw [if_neg hdead]
    refine ⟨rfl, rfl, ?_⟩
    intro hh
    simp [Persona.vivo] at hh

theorem marcar_de_vivo (q : Persona) (fd hoy : Fecha) (hq : q.vivo = true) :
    (q.marcar_fallecido fd hoy).vivo = false := by
  unfold Persona.marcar_fallecido Persona.registrar_evento
  have hnone : ¬ q.fecha_fallecimiento.isSome := by
    unfold Persona.vivo at hq
    cases hf : q.fecha_fallecimiento with
    | none => simp
    | some d => rw [hf] at hq; simp at hq
  rw [if_neg hnone]
  rfl

/-- One widowhood update (erasing the dead partner's cédula from a living
partner) preserves the bundle, provided the erased cédula belongs to a
deceased member. -/
theorem parejasBien_viudez_paso (fam : Familia) (dc ced : String) (hoy : Fecha)
    (h : ParejasBien fam)
    (hdead : ∀ pdc, fam.obtener dc = some pdc → pdc.vivo = false) :
    ParejasBien (modifMiembro fam ced (fun q =>
      { q with estado_civil := "Viudo(a)", parejas := q.parejas.erase dc,
               historial := q.historial ++ [(hoy.year, "Quedó viudo(a)")],
               salud_emocional := q.salud_emocional - 10 })) := by
  obtain ⟨hc, hd, hm⟩ := h
  have fetch : ∀ x p, (modifMiembro fam ced (fun q =>
      { q with estado_civil := "Viudo(a)", parejas := q.parejas.erase dc,
               historial := q.historial ++ [(hoy.year, "Quedó viudo(a)")],
               salud_emocional := q.salud_emocional - 10 })).obtener x = some p →
      ∃ q, fam.obtener x = some q ∧ p.cedula = q.cedula ∧ p.vivo = q.vivo ∧
        (p.parejas = q.parejas.erase dc ∨ p.parejas = q.parejas) := by
    intro x p hp
    rw [obtener_modifMiembro] at hp
    by_cases hx : x = ced
    · rw [if_pos hx] at hp
      obtain ⟨q, hq, hfq⟩ := Option.map_eq_some'.mp hp
      refine ⟨q, hx ▸ hq, ?_, ?_, Or.inl ?_⟩
      · rw [← hfq]
      · rw [← hfq]
        rfl
      · rw [← hfq]
    · rw [if_neg hx] at hp
      exact ⟨p, hp, rfl, rfl, Or.inr rfl⟩
  refine ⟨?_, ?_, ?_⟩
  · intro x p hp
    obtain ⟨q, hq, hco, _, _⟩ := fetch x p hp
    rw [hco]
    exact hc _ _ hq
  · intro x p hp c' hcp
    obtain ⟨q, hq, _, _, hpar⟩ := fetch x p hp
    rw [isSome_modifMiembro]
    rcases hpar with hpar | hpar
    · rw [hpar] at hcp
      exact hd _ _ hq _ (Finset.mem_of_mem_erase hcp)
    · rw [hpar] at hcp
      exact hd _ _ hq _ hcp
  · intro x y p1 p2 hx hy v1 v2
    obtain ⟨q1, hq1, _, hviv1, hpar1⟩ := fetch x p1 hx
    obtain ⟨q2, hq2, _, hviv2, hpar2⟩ := fetch y p2 hy
    have hv1 : q1.vivo = true := hviv1 ▸ v1
    have hv2 : q2.vivo = true := hviv2 ▸ v2
    have hold := hm x y q1 q2 hq1 hq2 hv1 hv2
    have hydc : y ≠ dc := by
      intro hh
      subst hh
      exact absurd (hdead q2 hq2) (by rw [hv2]; simp)
    have hxdc : x ≠ dc := by
      intro hh
      subst hh
      exact absurd (hdead q1 hq1) (by rw [hv1]; simp)
    have e1 : y ∈ p1.parejas ↔ y ∈ q1.parejas := by
      rcases hpar1 with hh | hh
      · rw [hh, Finset.mem_erase]
        exact ⟨fun a => a.2, fun a => ⟨hydc, a⟩⟩
      · rw [hh]
    have e2 : x ∈ p2.parejas ↔ x ∈ q2.parejas := by
      rcases hpar2 with hh | hh
      · rw [hh, Finset.mem_erase]
        exact ⟨fun a => a.2, fun a => ⟨hxdc, a⟩⟩
      · rw [hh]
    rw [e1, e2]
    exact hold

theorem parejasBien_viudez (fam : Familia) (fallecida : Persona) (hoy : Fecha)
    (h : ParejasBien fam)
    (hdead : ∀ pdc, fam.obtener fallecida.cedula = some pdc → pdc.vivo = false) :
    ParejasBien (gestionar_viudez fam fallecida hoy) := by
  unfold gestionar_viudez
  have main : ∀ (L : List String) (f : Familia), ParejasBien f →
      (∀ pdc, f.obtener fallecida.cedula = some pdc → pdc.vivo = false) →
      ParejasBien (L.foldl (fun f ced =>
        match f.obtener ced with
        | none => f
        | some pareja =>
          if pareja.vivo then
            modifMiembro f ced (fun q =>
              { q with estado_civil := "Viudo(a)",
                       parejas := q.parejas.erase fallecida.cedula,
                       historial := q.historial ++ [(hoy.year, "Quedó viudo(a)")],
                       salud_emocional := q.salud_emocional - 10 })
          else f) f) := by
    intro L
    induction L with
    | nil =>
      intro f hf _
      exact hf
    | cons ced r ih =>
      intro f hf hfd
      rw [List.foldl_cons]
      cases hob : f.obtener ced with
      | none =>
        simp only [hob]
        exact ih f hf hfd
      | some pareja =>
        simp only [hob]
        by_cases hviva : pareja.vivo = true
        · rw [if_pos hviva]
          have hcedne : ced ≠ fallecida.cedula := by
            intro hh
            subst hh
            exact absurd (hfd pareja hob) (by rw [hviva]; simp)
          refine ih _ (parejasBien_viudez_paso f fallecida.cedula ced hoy hf hfd) ?_
          intro pdc hpdc
          rw [obtener_modifMiembro, if_neg (fun hh => hcedne hh.symm)] at hpdc
          exact hfd pdc hpdc
        · rw [if_neg hviva]
          exact ih f hf hfd
  exact main _ fam h hdead

theorem parejasBien_pasoMuertes (fam : Familia) (fechaSim hoy : Fecha) (muere : String → Bool)
    (h : ParejasBien fam) : ParejasBien (pasoMuertes fam fechaSim hoy muere) := by
  unfold pasoMuertes
  have main : ∀ (L : List String) (f : Familia), ParejasBien f →
      ParejasBien (L.foldl (fun f k =>
        match f.obtener k with
        | none => f
        | some p =>
          if ¬ p.vivo then f
          else if muere k then
            let f1 := modifMiembro f k (fun q => q.marcar_fallecido fechaSim hoy)
            match f1.obtener k with
            | some muerto => gestionar_viudez f1 muerto hoy
            | none => f1
          else f) f) := by
    intro L
    induction L with
    | nil =>
      intro f hf
      exact hf
    | cons k r ih =>
      intro f hf
      rw [List.foldl_cons]
      cases hob : f.obtener k with
      | none =>
        simp only [hob]
        exact ih f hf
      | some p =>
        simp only [hob]
        by_cases hviva : p.vivo = true
        · rw [if_neg (by simp [hviva])]
          by_cases hmu : muere k = true
          · rw [if_pos hmu]
            have hf1 : ParejasBien (modifMiembro f k
                (fun q => q.marcar_fallecido fechaSim hoy)) :=
              parejasBien_modif_seguro f k _
                (fun q => (marcar_campos q fechaSim hoy).1)
                (fun q => (marcar_campos q fechaSim hoy).2.1)
                (fun q => (marcar_campos q fechaSim hoy).2.2) hf
            cases hob1 : (modifMiembro f k
                (fun q => q.marcar_fallecido fechaSim hoy)).obtener k with
            | none => exact ih _ hf1
            | some muerto =>
              have hmced : muerto.cedula = k := hf1.1 _ _ hob1
              have hmdead : muerto.vivo = false := by
                have hob1' := hob1
                rw [obtener_modifMiembro, if_pos rfl, hob] at hob1'
                simp only [Option.map, Option.some.injEq] at hob1'
                rw [← hob1']
                exact marcar_de_vivo p fechaSim hoy hviva
              refine ih _ (parejasBien_viudez _ muerto hoy hf1 ?_)
              intro pdc hpdc
              rw [hmced] at hpdc
              rw [obtener_funcional hpdc hob1]
              exact hmdead
          · rw [if_neg hmu]
            exact ih f hf
        · rw [if_pos (by simp [hviva])]
          exact ih f hf
  exact main _ fam h

theorem arbolBien_unir (s : ArbolGenealogico) (idf c1 c2 : String) (hoy : Fecha)
    (hA : ArbolBien s) : ArbolBien (s.unir_pareja idf c1 c2 hoy).2 := by
  unfold ArbolGenealogico.unir_pareja
  cases hgf : s.get_familia idf with
  | none => exact hA
  | some fam =>
    dsimp only
    cases ha : fam.obtener c1 with
    | none =>
      cases hb : fam.obtener c2 <;> exact hA
    | some a =>
      cases hb : fam.obtener c2 with
      | none => exact hA
      | some b =>
        dsimp only
        by_cases hcomp : a.es_compatible_para_union b hoy = true
        · rw [if_pos hcomp]
          refine arbolBien_set hA ?_
          refine parejasBien_modif_seguro _ _ _ (fun q => rfl) (fun q => rfl) (fun q hh => hh) ?_
          refine parejasBien_modif_seguro _ _ _ (fun q => rfl) (fun q => rfl) (fun q hh => hh) ?_
          refine parejasBien_modif_seguro _ _ _ (fun q => rfl) (fun q => rfl) (fun q hh => hh) ?_
          refine parejasBien_modif_seguro _ _ _ (fun q => rfl) (fun q => rfl) (fun q hh => hh) ?_
          exact parejasBien_union_insert fam c1 c2 a b ha hb (hA _ _ hgf)
        · rw [if_neg hcomp]
          exact hA

theorem arbolBien_matrimonio (s : ArbolGenealogico) (idf c1 c2 : String) (hoy : Fecha)
    (hA : ArbolBien s) : ArbolBien (s.registrar_matrimonio idf c1 c2 hoy).2 := by
  unfold ArbolGenealogico.registrar_matrimonio
  cases hgf : s.get_familia idf with
  | none => exact hA
  | some fam =>
    dsimp only
    cases ha : fam.obtener c1 with
    | none =>
      cases hb : fam.obtener c2 <;> exact hA
    | some a =>
      cases hb : fam.obtener c2 with
      | none => exact hA
      | some b =>
        dsimp only
        have hpaso : ArbolBien
            (if b.cedula ∈ a.parejas then (true, s)
             else s.unir_pareja idf c1 c2 hoy).2 := by
          by_cases hmem : b.cedula ∈ a.parejas
          · rw [if_pos hmem]
            exact hA
          · rw [if_neg hmem]
            exact arbolBien_unir s idf c1 c2 hoy hA
        by_cases h1 : (if b.cedula ∈ a.parejas then (true, s)
            else s.unir_pareja idf c1 c2 hoy).1 = true
        · rw [if_pos h1]
          cases hgf2 : (if b.cedula ∈ a.parejas then (true, s)
              else s.unir_pareja idf c1 c2 hoy).2.get_familia idf with
          | none => exact hpaso
          | some famU =>
            dsimp only
            refine arbolBien_set hpaso ?_
            refine parejasBien_modif_seguro _ _ _ (fun q => rfl) (fun q => rfl) (fun q hh => hh) ?_
            refine parejasBien_modif_seguro _ _ _ (fun q => rfl) (fun q => rfl) (fun q hh => hh) ?_
            refine parejasBien_modif_seguro _ _ _ (fun q => rfl) (fun q => rfl) (fun q hh => hh) ?_
            exact parejasBien_modif_seguro _ _ _ (fun q => rfl) (fun q => rfl) (fun q hh => hh)
              (hpaso _ _ hgf2)
        · rw [if_neg h1]
          exact hA

theorem arbolBien_padre_hijo (s : ArbolGenealogico) (idf cp ch : String)
    (hA : ArbolBien s) : ArbolBien (s.registrar_padre_hijo idf cp ch).2 := by
  unfold ArbolGenealogico.registrar_padre_hijo
  cases hgf : s.get_familia idf with
  | none => exact hA
  | some fam =>
    dsimp only
    cases hp : fam.obtener cp with
    | none =>
      cases hh : fam.obtener ch <;> exact hA
    | some padre =>
      cases hh : fam.obtener ch with
      | none => exact hA
      | some hijo =>
        dsimp only
        refine arbolBien_set hA ?_
        refine parejasBien_modif_seguro _ _ _ (fun q => rfl) (fun q => rfl) (fun q hh => hh) ?_
        exact parejasBien_modif_seguro _ _ _ (fun q => rfl) (fun q => rfl) (fun q hh => hh)
          (hA _ _ hgf)

theorem parejasBien_agregar_nueva (fam : Familia) (p : Persona) (af1 af2 : String)
    (hpar : p.parejas = ∅) (hdup : ¬ (fam.obtener p.cedula).isSome = true)
    (h : ParejasBien fam) :
    ParejasBien { fam with
      miembros := dictSet fam.miembros p.cedula (personaAlmacenada p af1 af2) } := by
  obtain ⟨hc, hd, hm⟩ := h
  have halm_ced : (personaAlmacenada p af1 af2).cedula = p.cedula := by
    unfold personaAlmacenada Persona.registrar_evento
    split <;> rfl
  have halm_par : (personaAlmacenada p af1 af2).parejas = p.parejas := by
    unfold personaAlmacenada Persona.registrar_evento
    split <;> rfl
  have fetch : ∀ x, Familia.obtener { fam with
      miembros := dictSet fam.miembros p.cedula (personaAlmacenada p af1 af2) } x =
      if x = p.cedula then some (personaAlmacenada p af1 af2) else fam.obtener x := by
    intro x
    exact buscarM_dictSet fam.miembros p.cedula x _
  have key : ∀ z pz, fam.obtener z = some pz → p.cedula ∉ pz.parejas := by
    intro z pz hz contra
    exact hdup (hd z pz hz _ contra)
  refine ⟨?_, ?_, ?_⟩
  · intro x q hq
    rw [fetch] at hq
    by_cases hx : x = p.cedula
    · rw [if_pos hx] at hq
      rw [← Option.some.injEq .. |>.mp hq, halm_ced, hx]
    · rw [if_neg hx] at hq
      exact hc _ _ hq
  · intro x q hq c' hcp
    rw [fetch] at hq
    rw [fetch]
    by_cases hx : x = p.cedula
    · rw [if_pos hx] at hq
      rw [← Option.some.injEq .. |>.mp hq, halm_par, hpar] at hcp
      exact absurd hcp (Finset.not_mem_empty c')
    · rw [if_neg hx] at hq
      by_cases hc' : c' = p.cedula
      · rw [if_pos hc']
        rfl
      · rw [if_neg hc']
        exact hd _ _ hq _ hcp
  · intro x y q1 q2 hx hy v1 v2
    rw [fetch] at hx hy
    by_cases hx1 : x = p.cedula <;> by_cases hy1 : y = p.cedula
    · rw [if_pos hx1] at hx
      rw [if_pos hy1] at hy
      rw [← Option.some.injEq .. |>.mp hx, ← Option.some.injEq .. |>.mp hy, hx1, hy1]
    · rw [if_pos hx1] at hx
      rw [if_neg hy1] at hy
      rw [← Option.some.injEq .. |>.mp hx, halm_par, hpar]
      constructor
      · intro hmem
        exact absurd hmem (Finset.not_mem_empty y)
      · intro hmem
        rw [hx1] at hmem
        exact absurd hmem (key _ _ hy)
    · rw [if_neg hx1] at hx
      rw [if_pos hy1] at hy
      rw [← Option.some.injEq .. |>.mp hy, halm_par, hpar]
      constructor
      · intro hmem
        rw [hy1] at hmem
        exact absurd hmem (key _ _ hx)
      · intro hmem
        exact absurd hmem (Finset.not_mem_empty x)
    · rw [if_neg hx1] at hx
      rw [if_neg hy1] at hy
      exact hm x y q1 q2 hx hy v1 v2

theorem arbolBien_agregar {s s' : ArbolGenealogico} {idf : String} {p : Persona}
    {af1 af2 : String} (hpar : p.parejas = ∅) (hA : ArbolBien s)
    (hok : s.agregar_persona idf p af1 af2 = Except.ok s') : ArbolBien s' := by
  cases hgf : s.get_familia idf with
  | none =>
    rw [agregar_sin_familia s idf p af1 af2 hgf] at hok
    simp at hok
  | some fam =>
    by_cases hdup : (fam.obtener p.cedula).isSome = true
    · rw [agregar_duplicada s idf p af1 af2 fam hgf hdup] at hok
      simp at hok
    · rw [agregar_exito s idf p af1 af2 fam hgf hdup] at hok
      cases hok
      exact arbolBien_set hA (parejasBien_agregar_nueva fam p af1 af2 hpar hdup (hA _ _ hgf))

theorem arbolBien_crear {s s' : ArbolGenealogico} {idf nom : String}
    (hA : ArbolBien s) (hok : s.crear_familia idf nom = Except.ok s') : ArbolBien s' := by
  unfold ArbolGenealogico.crear_familia at hok
  by_cases hex : (s.get_familia idf).isSome = true
  · rw [if_pos hex] at hok
    simp at hok
  · rw [if_neg hex] at hok
    cases hok
    intro j fam hf
    unfold ArbolGenealogico.get_familia at hf
    rw [show ({ s with familias := dictSet s.familias idf ⟨idf, nom, []⟩ } :
        ArbolGenealogico).familias = dictSet s.familias idf ⟨idf, nom, []⟩ from rfl,
      buscarM_dictSet] at hf
    by_cases hj : j = idf
    · rw [if_pos hj] at hf
      cases hf
      refine ⟨?_, ?_, ?_⟩
      · intro c q hq
        simp [Familia.obtener, buscarM] at hq
      · intro c q hq
        simp [Familia.obtener, buscarM] at hq
      · intro x y q1 q2 hx
        simp [Familia.obtener, buscarM] at hx
    · rw [if_neg hj] at hf
      exact hA _ _ hf

theorem arbolBien_nacimiento {s s' : ArbolGenealogico} {idf c1 c2 : String}
    {ω : OraculoBebe} {hoy : Fecha} {r : Option Persona} (hA : ArbolBien s)
    (hok : s.registrar_nacimiento_de_pareja idf c1 c2 ω hoy = Except.ok (r, s')) :
    ArbolBien s' := by
  unfold ArbolGenealogico.registrar_nacimiento_de_pareja at hok
  cases hgf : s.get_familia idf with
  | none =>
    rw [hgf] at hok
    simp only [Except.ok.injEq, Prod.mk.injEq] at hok
    rw [← hok.2]
    exact hA
  | some fam =>
    rw [hgf] at hok
    dsimp only at hok
    cases ha : fam.obtener c1 with
    | none =>
      rw [ha] at hok
      cases hb : fam.obtener c2 <;> rw [hb] at hok <;>
        simp only [Except.ok.injEq, Prod.mk.injEq] at hok <;> rw [← hok.2] <;> exact hA
    | some a =>
      rw [ha] at hok
      cases hb : fam.obtener c2 with
      | none =>
        rw [hb] at hok
        simp only [Except.ok.injEq, Prod.mk.injEq] at hok
        rw [← hok.2]
        exact hA
      | some b =>
        rw [hb] at hok
        dsimp only at hok
        by_cases hmem : b.cedula ∈ a.parejas
        · rw [if_neg (not_not_intro hmem)] at hok
          cases hagg : s.agregar_persona idf
              { cedula := toString ω.cedula, nombre := ω.nombre,
                fecha_nacimiento := s.fecha_simulada, genero := ω.genero,
                provincia := if ω.provinciaDeA then a.provincia else b.provincia,
                estado_civil := "Soltero(a)" } ω.af1 ω.af2 with
          | error e =>
            rw [hagg] at hok
            simp at hok
          | ok arb1 =>
            rw [hagg] at hok
            dsimp only at hok
            have hA1 : ArbolBien arb1 := arbolBien_agregar rfl hA hagg
            cases hgf1 : arb1.get_familia idf with
            | none =>
              rw [hgf1] at hok
              simp only [Except.ok.injEq, Prod.mk.injEq] at hok
              rw [← hok.2]
              exact hA1
            | some fam1 =>
              rw [hgf1] at hok
              simp only [Except.ok.injEq, Prod.mk.injEq] at hok
              rw [← hok.2]
              refine arbolBien_set hA1 ?_
              refine parejasBien_modif_seguro _ _ _ (fun q => rfl) (fun q => rfl)
                (fun q hh => hh) ?_
              refine parejasBien_modif_seguro _ _ _ (fun q => rfl) (fun q => rfl)
                (fun q hh => hh) ?_
              refine parejasBien_modif_seguro _ _ _ (fun q => rfl) (fun q => rfl)
                (fun q hh => hh) ?_
              refine parejasBien_modif_seguro _ _ _ (fun q => rfl) (fun q => rfl)
                (fun q hh => hh) ?_
              exact parejasBien_modif_seguro _ _ _ (fun q => rfl) (fun q => rfl)
                (fun q hh => hh) (hA1 _ _ hgf1)
        · rw [if_pos hmem] at hok
          simp only [Except.ok.injEq, Prod.mk.injEq] at hok
          rw [← hok.2]
          exact hA

theorem parejasBien_pasoTutoria (fechaSim hoy : Fecha) (fam : Familia) (k : String)
    (h : ParejasBien fam) : ParejasBien (pasoTutoria fechaSim hoy fam k) := by
  unfold pasoTutoria
  cases hob : fam.obtener k with
  | none => exact h
  | some p =>
    dsimp only
    split
    · exact h
    split
    · split
      · split
        · exact parejasBien_modif_seguro _ _ _ (fun q => rfl) (fun q => rfl)
            (fun q hh => hh) h
        · exact h
      · exact h
    · exact h

theorem parejasBien_reasignar (fam : Familia) (fechaSim hoy : Fecha)
    (h : ParejasBien fam) : ParejasBien (reasignar_tutoria_menores fam fechaSim hoy) := by
  unfold reasignar_tutoria_menores
  have main : ∀ (L : List String) (f : Familia), ParejasBien f →
      ParejasBien (L.foldl (pasoTutoria fechaSim hoy) f) := by
    intro L
    induction L with
    | nil =>
      intro f hf
      exact hf
    | cons k r ih =>
      intro f hf
      rw [List.foldl_cons]
      exact ih _ (parejasBien_pasoTutoria fechaSim hoy f k hf)
  exact main _ fam h

theorem arbolBien_cuerpoUnion (idf : String) (hoy : Fecha) (acepta : Nat → Bool) (i : Nat)
    (arb : ArbolGenealogico) (par : String × String) (hA : ArbolBien arb) :
    ArbolBien (cuerpoUnion idf hoy acepta i arb par) := by
  unfold cuerpoUnion
  cases h1 : (arb.get_familia idf).bind (fun f => f.obtener par.1) with
  | none =>
    cases h2 : (arb.get_familia idf).bind (fun f => f.obtener par.2) <;> exact hA
  | some a =>
    cases h2 : (arb.get_familia idf).bind (fun f => f.obtener par.2) with
    | none => exact hA
    | some b =>
      dsimp only
      split
      · split
        · exact arbolBien_unir arb idf a.cedula b.cedula hoy hA
        · exact hA
      · exact hA

theorem arbolBien_pasoUniones (idf : String) (hoy : Fecha) (acepta : Nat → Bool)
    (vivos : List String) (arb : ArbolGenealogico) (hA : ArbolBien arb) :
    ArbolBien (pasoUniones idf hoy acepta vivos arb) := by
  unfold pasoUniones
  have main : ∀ (L : List (String × String)) (st : Nat × ArbolGenealogico),
      ArbolBien st.2 →
      ArbolBien ((L.foldl (fun (st : Nat × ArbolGenealogico) par =>
        (st.1 + 1, cuerpoUnion idf hoy acepta st.1 st.2 par)) st)).2 := by
    intro L
    induction L with
    | nil =>
      intro st hst
      exact hst
    | cons par r ih =>
      intro st hst
      rw [List.foldl_cons]
      exact ih _ (arbolBien_cuerpoUnion idf hoy acepta st.1 st.2 par hst)
  exact main _ (0, arb) hA

theorem arbolBien_cuerpoNacimiento (idf : String) (hoy : Fecha) (nace : Nat → Bool)
    (bebes : Nat → OraculoBebe) (st : Nat × ArbolGenealogico × Bool)
    (par : String × String) (hA : ArbolBien st.2.1) :
    ArbolBien (cuerpoNacimiento idf hoy nace bebes st par).2.1 := by
  unfold cuerpoNacimiento
  obtain ⟨i, arb, ok⟩ := st
  dsimp only at hA ⊢
  split
  · exact hA
  cases h1 : (arb.get_familia idf).bind (fun f => f.obtener par.1) with
  | none =>
    cases h2 : (arb.get_familia idf).bind (fun f => f.obtener par.2) <;> exact hA
  | some a =>
    cases h2 : (arb.get_familia idf).bind (fun f => f.obtener par.2) with
    | none => exact hA
    | some b =>
      dsimp only
      split
      · split
        · cases hr : arb.registrar_nacimiento_de_pareja idf par.1 par.2 (bebes i) hoy with
          | error e => exact hA
          | ok rs =>
            obtain ⟨r, arb'⟩ := rs
            exact arbolBien_nacimiento hA hr
        · exact hA
      · exact hA

theorem arbolBien_pasoNacimientos (idf : String) (hoy : Fecha) (nace : Nat → Bool)
    (bebes : Nat → OraculoBebe) (pares : List (String × String))
    (arb : ArbolGenealogico) (hA : ArbolBien arb) :
    ArbolBien (pasoNacimientos idf hoy nace bebes pares arb).1 := by
  unfold pasoNacimientos
  have main : ∀ (L : List (String × String)) (st : Nat × ArbolGenealogico × Bool),
      ArbolBien st.2.1 →
      ArbolBien ((L.foldl (cuerpoNacimiento idf hoy nace bebes) st)).2.1 := by
    intro L
    induction L with
    | nil =>
      intro st hst
      exact hst
    | cons par r ih =>
      intro st hst
      rw [List.foldl_cons]
      exact ih _ (arbolBien_cuerpoNacimiento idf hoy nace bebes st par hst)
  exact main _ (0, arb, true) hA

theorem get_tick_diario (s : ArbolGenealogico) (dias : Nat) (j : String) :
    (s.tick_diario dias).get_familia j = s.get_familia j := rfl

theorem arbolBien_tick (s : ArbolGenealogico) (idf : String) (ω : OraculoTick) (hoy : Fecha)
    (hA : ArbolBien s) : ArbolBien (s.evento_cada_10s idf ω hoy) := by
  unfold ArbolGenealogico.evento_cada_10s
  cases hgf : s.get_familia idf with
  | none => exact hA
  | some fam0 =>
    dsimp only
    have hA1 : ArbolBien (s.tick_diario 365) := by
      intro j f hf
      rw [get_tick_diario] at hf
      exact hA _ _ hf
    have hA2 : ArbolBien (match (s.tick_diario 365).get_familia idf with
        | none => s.tick_diario 365
        | some fam1 => setFamilia (s.tick_diario 365) idf
            (pasoMuertes fam1 (s.tick_diario 365).fecha_simulada hoy ω.muere)) := by
      cases hgf1 : (s.tick_diario 365).get_familia idf with
      | none => exact hA1
      | some fam1 =>
        exact arbolBien_set hA1
          (parejasBien_pasoMuertes fam1 _ hoy ω.muere (hA1 _ _ hgf1))
    have hA3 : ArbolBien (pasoUniones idf hoy ω.acepta ω.vivosBarajados
        (match (s.tick_diario 365).get_familia idf with
         | none => s.tick_diario 365
         | some fam1 => setFamilia (s.tick_diario 365) idf
             (pasoMuertes fam1 (s.tick_diario 365).fecha_simulada hoy ω.muere))) :=
      arbolBien_pasoUniones _ hoy ω.acepta ω.vivosBarajados _ hA2
  
    set arb3 := pasoUniones idf hoy ω.acepta ω.vivosBarajados
        (match (s.tick_diario 365).get_familia idf with
         | none => s.tick_diario 365
         | some fam1 => setFamilia (s.tick_diario 365) idf
             (pasoMuertes fam1 (s.tick_diario 365).fecha_simulada hoy ω.muere)) with harb3
    have hres : ArbolBien (match arb3.get_familia idf with
        | none => (arb3, true)
        | some fam3 => pasoNacimientos idf hoy ω.nace ω.bebes (parejasDe fam3) arb3).1 := by
      cases hgf3 : arb3.get_familia idf with
      | none => exact hA3
      | some fam3 => exact arbolBien_pasoNacimientos idf hoy ω.nace ω.bebes _ arb3 hA3
    set resultado := (match arb3.get_familia idf with
        | none => (arb3, true)
        | some fam3 => pasoNacimientos idf hoy ω.nace ω.bebes (parejasDe fam3) arb3) with hresdef
    split
    · cases hgf4 : resultado.1.get_familia idf with
      | none => exact hres
      | some fam4 =>
        exact arbolBien_set hres (parejasBien_reasignar fam4 _ hoy (hres _ _ hgf4))
    · exact hres

instance : DecidableEq ArbolGenealogico := fun a b =>
  if h1 : a.familias = b.familias then
    if h2 : a.fecha_simulada = b.fecha_simulada then
      isTrue (by cases a; cases b; cases h1; cases h2; rfl)
    else isFalse (fun hh => h2 (congrArg ArbolGenealogico.fecha_simulada hh))
  else isFalse (fun hh => h1 (congrArg ArbolGenealogico.familias hh))

/-- The partner-edge bundle holds in every reachable state. -/
theorem arbolBien_alcanzable {s : ArbolGenealogico} (h : Alcanzable s) : ArbolBien s := by
  induction h with
  | inicial hoy =>
    intro j fam hf
    simp [ArbolGenealogico.get_familia, buscarM] at hf
  | crear _ hok ih => exact arbolBien_crear ih hok
  | agregar _ hpadres hhijos hpar hff haf1 haf2 hne hok ih => exact arbolBien_agregar hpar ih hok
  | unir _ ih => exact arbolBien_unir _ _ _ _ _ ih
  | matrimonio _ ih => exact arbolBien_matrimonio _ _ _ _ _ ih
  | padreHijo _ ih => exact arbolBien_padre_hijo _ _ _ _ ih
  | nacimiento _ hval hok ih => exact arbolBien_nacimiento ih hok
  | tick _ hval ih => exact arbolBien_tick _ _ _ _ ih

-- ------------------------------- claim C1 -------------------------------

/-- Reference date for the C1 trace. -/
def hoyC1 : Fecha := ⟨2025, 1, 1⟩

/-- First person registered in the C1 trace. -/
def personaAC1 : Persona :=
  { cedula := "a1", nombre := "Aitor", fecha_nacimiento := ⟨1985, 5, 10⟩,
    genero := "Masculino", provincia := "San José", afinidades := {"Arte", "Música"} }

/-- Second person registered in the C1 trace. -/
def personaBC1 : Persona :=
  { cedula := "b1", nombre := "Bruno", fecha_nacimiento := ⟨1982, 3, 2⟩,
    genero := "Masculino", provincia := "Alajuela", afinidades := {"Arte", "Música"} }

/-- C1 trace, step 0: fresh registry. -/
def arbC1a : ArbolGenealogico := { familias := [], fecha_simulada := hoyC1 }

/-- C1 trace, step 1: after `crear_familia "f" "F"`. -/
def arbC1b : ArbolGenealogico :=
  { familias := [("f", ⟨"f", "F", []⟩)], fecha_simulada := hoyC1 }

/-- C1 trace, step 2: after registering `personaAC1` (both affinities were
supplied, so the random fill is unused and only the "Nacimiento" event is
added). -/
def arbC1c : ArbolGenealogico :=
  { familias := [("f", ⟨"f", "F",
      [("a1", { personaAC1 with historial := [(1985, "Nacimiento")] })]⟩)],
    fecha_simulada := hoyC1 }

/-- C1 trace, step 3: after registering `personaBC1`. -/
def arbC1d : ArbolGenealogico :=
  { familias := [("f", ⟨"f", "F",
      [("a1", { personaAC1 with historial := [(1985, "Nacimiento")] }),
       ("b1", { personaBC1 with historial := [(1982, "Nacimiento")] })]⟩)],
    fecha_simulada := hoyC1 }

/-- C1 trace, step 4: after the successful union of the pair (both single
adults, shared affinities, index 95 ≥ 70). -/
def arbC1e : ArbolGenealogico := (arbC1d.unir_pareja "f" "a1" "b1" hoyC1).2

/-- A constant valid draw for the birth oracle of the C1 tick (no birth is
attempted: `nace` is always false). -/
def bebeC1 : OraculoBebe :=
  { cedula := 10000000, nombre := "Alex", genero := "Masculino",
    provinciaDeA := true, af1 := "Deporte", af2 := "Arte" }

/-- Oracle for the C1 tick: the death draw (probability ≈ 0.05 per member,
hence a possible outcome) kills exactly `"a1"`; the shuffled living list is
empty, so no new unions; no birth succeeds its draw. -/
def ωC1 : OraculoTick :=
  { muere := fun c => c == "a1", vivosBarajados := [],
    acepta := fun _ => false, nace := fun _ => false, bebes := fun _ => bebeC1 }

/-- C1 trace, step 5: after one simulation tick in which `"a1"` dies.  The
widowhood pass erases `"a1"` from the surviving partner's set but leaves
`"b1"` in the deceased's set. -/
def arbC1f : ArbolGenealogico := arbC1e.evento_cada_10s "f" ωC1 hoyC1

instance : DecidableEq (Except String ArbolGenealogico) := fun a b =>
  match a, b with
  | .error e1, .error e2 =>
    if h : e1 = e2 then isTrue (by rw [h]) else isFalse (by intro hh; cases hh; exact h rfl)
  | .ok s1, .ok s2 =>
    if h : s1 = s2 then isTrue (by rw [h]) else isFalse (by intro hh; cases hh; exact h rfl)
  | .error e1, .ok s2 => isFalse (by intro hh; cases hh)
  | .ok s1, .error e2 => isFalse (by intro hh; cases hh)

theorem alcanzable_arbC1e : Alcanzable arbC1e := by
  have h0 : Alcanzable arbC1a := Alcanzable.inicial hoyC1
  have e1 : arbC1a.crear_familia "f" "F" = Except.ok arbC1b := by decide
  have h1 : Alcanzable arbC1b := Alcanzable.crear h0 e1
  have e2 : arbC1b.agregar_persona "f" personaAC1 "Deporte" "Arte" = Except.ok arbC1c := by
    decide
  have h2 : Alcanzable arbC1c :=
    Alcanzable.agregar h1 rfl rfl rfl rfl (by decide) (by decide) (by decide) e2
  have e3 : arbC1c.agregar_persona "f" personaBC1 "Deporte" "Arte" = Except.ok arbC1d := by
    decide
  have h3 : Alcanzable arbC1d :=
    Alcanzable.agregar h2 rfl rfl rfl rfl (by decide) (by decide) (by decide) e3
  exact Alcanzable.unir h3

theorem addDias_add (f : Fecha) (m n : Nat) :
    addDias f (m + n) = addDias (addDias f n) m := by
  unfold addDias
  exact Function.iterate_add_apply sigDia m n f

set_option maxRecDepth 100000 in
theorem addDias_365_2025 : addDias ⟨2025, 1, 1⟩ 365 = ⟨2026, 1, 1⟩ := by
  have h1 : addDias ⟨2025, 1, 1⟩ 150 = ⟨2025, 5, 31⟩ := by decide
  have e : (365 : Nat) = 215 + 150 := by decide
  rw [e, addDias_add, h1]
  have h2 : addDias ⟨2025, 5, 31⟩ 150 = ⟨2025, 10, 28⟩ := by decide
  have e2 : (215 : Nat) = 65 + 150 := by decide
  rw [e2, addDias_add, h2]
  decide

/-- `personaAC1` as stored after the union: partnered with `"b1"`. -/
def personaAuC1 : Persona :=
  { cedula := "a1", nombre := "Aitor", fecha_nacimiento := ⟨1985, 5, 10⟩,
    genero := "Masculino", provincia := "San José", estado_civil := "Unión libre",
    parejas := {"b1"}, afinidades := {"Arte", "Música"},
    historial := [(1985, "Nacimiento"), (2025, "Unión de pareja con Bruno")] }

/-- `personaBC1` as stored after the union: partnered with `"a1"`. -/
def personaBuC1 : Persona :=
  { cedula := "b1", nombre := "Bruno", fecha_nacimiento := ⟨1982, 3, 2⟩,
    genero := "Masculino", provincia := "Alajuela", estado_civil := "Unión libre",
    parejas := {"a1"}, afinidades := {"Arte", "Música"},
    historial := [(1982, "Nacimiento"), (2025, "Unión de pareja con Aitor")] }

/-- The family after the union, as a literal. -/
def famC1eVal : Familia :=
  ⟨"f", "F", [("a1", personaAuC1), ("b1", personaBuC1)]⟩

/-- The post-union state, as a literal. -/
def arbC1eVal : ArbolGenealogico :=
  { familias := [("f", famC1eVal)], fecha_simulada := hoyC1 }

/-- `"a1"` after dying in the tick: death date recorded, own partner set
untouched. -/
def personaAfC1 : Persona :=
  { personaAuC1 with
      estado_civil := "Viudo(a)"
      fecha_fallecimiento := some ⟨2026, 1, 1⟩
      historial := personaAuC1.historial ++ [(2025, "Fallecimiento")] }

/-- `"b1"` after the widowhood pass: the dead partner was erased from its
partner set. -/
def personaBfC1 : Persona :=
  { personaBuC1 with
      estado_civil := "Viudo(a)"
      parejas := ∅
      historial := personaBuC1.historial ++ [(2025, "Quedó viudo(a)")]
      salud_emocional := 65 }

/-- The family after the tick, as a literal. -/
def famC1fVal : Familia :=
  ⟨"f", "F", [("a1", personaAfC1), ("b1", personaBfC1)]⟩

/-- The post-tick state, as a literal. -/
def arbC1fVal : ArbolGenealogico :=
  { familias := [("f", famC1fVal)], fecha_simulada := ⟨2026, 1, 1⟩ }

theorem arbC1e_eval : arbC1e = arbC1eVal := by decide

theorem alcanzable_arbC1eVal : Alcanzable arbC1eVal :=
  arbC1e_eval ▸ alcanzable_arbC1e

theorem arbC1f_eval : arbC1f = arbC1fVal := by
  have htick : arbC1eVal.tick_diario 365 =
      { arbC1eVal with fecha_simulada := ⟨2026, 1, 1⟩ } := by
    unfold ArbolGenealogico.tick_diario
    rw [show arbC1eVal.fecha_simulada = ⟨2025, 1, 1⟩ from rfl, addDias_365_2025]
  show arbC1e.evento_cada_10s "f" ωC1 hoyC1 = arbC1fVal
  rw [arbC1e_eval]
  unfold ArbolGenealogico.evento_cada_10s
  rw [htick]
  decide

/-- C1, counterexample: partner edges are *not* mutual in every reachable
state for every pair in the same family.  In the reachable state `arbC1f`
(couple united, then one partner dies in a tick) the widowhood pass removed
the dead `"a1"` from the survivor `"b1"`'s partner set, while
`gestionar_viudez` never touches the deceased's own set: `"b1"` is still a
partner of `"a1"`, but not conversely. -/
theorem C1_contraejemplo :
    Alcanzable arbC1f ∧
      arbC1f.get_familia "f" = some famC1fVal ∧
      famC1fVal.obtener "a1" = some personaAfC1 ∧
      famC1fVal.obtener "b1" = some personaBfC1 ∧
      "b1" ∈ personaAfC1.parejas ∧ ¬ "a1" ∈ personaBfC1.parejas := by
  refine ⟨?_, ?_, by decide, by decide, by decide, by decide⟩
  · have hbebe : bebeC1.valido := by decide
    have h : Alcanzable (arbC1e.evento_cada_10s "f" ωC1 hoyC1) :=
      Alcanzable.tick alcanzable_arbC1e (fun i => hbebe)
    exact h
  · rw [arbC1f_eval]
    decide

/-- C1 (amended): partner edges are mutual between *living* members in every
reachable state: for every state reachable from the empty registry, every
registered family, and members `c1`, `c2` both alive, `c2` is in `c1`'s
partner set iff `c1` is in `c2`'s.  (For a deceased member the widowhood
pass is one-sided, as `C1_contraejemplo` shows.) -/
theorem C1_parejas_enmendada {s : ArbolGenealogico} {idf c1 c2 : String}
    {fam : Familia} {p1 p2 : Persona} (hs : Alcanzable s)
    (hgf : s.get_familia idf = some fam)
    (h1 : fam.obtener c1 = some p1) (h2 : fam.obtener c2 = some p2)
    (v1 : p1.vivo = true) (v2 : p2.vivo = true) :
    c2 ∈ p1.parejas ↔ c1 ∈ p2.parejas :=
  (arbolBien_alcanzable hs idf fam hgf).2.2 c1 c2 p1 p2 h1 h2 v1 v2

/-- Witness for the amended C1 on the concrete reachable post-union state. -/
theorem C1_parejas_enmendada_witness :
    ("b1" ∈ personaAuC1.parejas ↔ "a1" ∈ personaBuC1.parejas) := by
  have hgf : arbC1eVal.get_familia "f" = some famC1eVal := by decide
  have h1 : famC1eVal.obtener "a1" = some personaAuC1 := by decide
  have h2 : famC1eVal.obtener "b1" = some personaBuC1 := by decide
  exact C1_parejas_enmendada alcanzable_arbC1eVal hgf h1 h2 (by decide) (by decide)

-- ------------------------------- claim C3 -------------------------------

/-- One resolvable child link: the parent cédula resolves and the child's
cédula is in its `hijos` set. -/
def PasoHijo (fam : Familia) (c c' : String) : Prop :=
  ∃ p, fam.obtener c = some p ∧ c' ∈ p.hijos

/-- Some cycle of child links is reachable (in zero or more links) from `c`. -/
def LlegaCiclo (fam : Familia) (c : String) : Prop :=
  ∃ z, Relation.ReflTransGen (PasoHijo fam) c z ∧ Relation.TransGen (PasoHijo fam) z z

/-- A cycle of child links is reachable from `x` (the claim's "malformed
graph" condition for `descendientes_vivos` started at `x`). -/
def HayCicloDesde (fam : Familia) (x : String) : Prop := LlegaCiclo fam x

/-- The `while stack:` loop of `descendientes_vivos`, with an explicit fuel
(`none` = the fuel ran out, so this run cannot certify termination).  The
stack is stored top-first: Python's `stack.pop()` takes the *last* element
and `stack.extend(p.hijos)` appends, so in the top-first view a pop takes the
head and an extend pushes the children in reverse iteration order (the
iteration order of the `hijos` set is modeled by `listaOrdenada`). -/
def dvLoop (fam : Familia) : Nat → List Persona → List String → Option (List Persona)
  | 0, _, _ => none
  | _ + 1, res, [] => some res
  | fuel + 1, res, ced :: stack =>
    match fam.obtener ced with
    | none => dvLoop fam fuel res stack
    | some p =>
      dvLoop fam fuel (if p.vivo then res ++ [p] else res)
        ((listaOrdenada p.hijos).reverse ++ stack)

/-- `ArbolGenealogico.descendientes_vivos` (the method reads only its `fam`
argument): empty list if `ced_x` does not resolve, else the stack traversal
of the children-closure, fuel-indexed. -/
def descendientes_vivos (fam : Familia) (ced_x : String) (fuel : Nat) :
    Option (List Persona) :=
  match fam.obtener ced_x with
  | none => some []
  | some x => dvLoop fam fuel [] (listaOrdenada x.hijos).reverse

/-- All child-link chains out of `c` are shorter than `d`. -/
def AlturaLt (fam : Familia) : Nat → String → Prop
  | 0, _ => False
  | d + 1, c => ∀ p, fam.obtener c = some p → ∀ c' ∈ p.hijos, AlturaLt fam d c'

/-- Number of loop iterations the traversal spends below `c` (exact once `d`
bounds the chain length). -/
def costoD (fam : Familia) : Nat → String → Nat
  | 0, _ => 0
  | d + 1, c =>
    match fam.obtener c with
    | none => 1
    | some p => 1 + ((listaOrdenada p.hijos).reverse.map (costoD fam d)).sum

/-- The persons the traversal appends while processing `c` (in order). -/
def coleccionD (fam : Familia) : Nat → String → List Persona
  | 0, _ => []
  | d + 1, c =>
    match fam.obtener c with
    | none => []
    | some p =>
      (if p.vivo then [p] else []) ++
        ((listaOrdenada p.hijos).reverse.map (coleccionD fam d)).flatten

theorem dvLoop_zero (fam : Familia) (res : List Persona) (stack : List String) :
    dvLoop fam 0 res stack = none := rfl

theorem dvLoop_nil (fam : Familia) (fuel : Nat) (res : List Persona) :
    dvLoop fam (fuel + 1) res [] = some res := rfl

theorem dvLoop_cons_none (fam : Familia) (fuel : Nat) (res : List Persona)
    (c : String) (stack : List String) (hc : fam.obtener c = none) :
    dvLoop fam (fuel + 1) res (c :: stack) = dvLoop fam fuel res stack := by
  simp only [dvLoop, hc]

theorem dvLoop_cons_some (fam : Familia) (fuel : Nat) (res : List Persona)
    (c : String) (stack : List String) (p : Persona) (hc : fam.obtener c = some p) :
    dvLoop fam (fuel + 1) res (c :: stack) =
      dvLoop fam fuel (if p.vivo then res ++ [p] else res)
        ((listaOrdenada p.hijos).reverse ++ stack) := by
  simp only [dvLoop, hc]

theorem dvLoop_avanza (fam : Familia) :
    ∀ (d : Nat) (L : List String), (∀ c ∈ L, AlturaLt fam d c) →
    ∀ (res : List Persona) (stack : List String) (fuel : Nat),
      dvLoop fam ((L.map (costoD fam d)).sum + fuel) res (L ++ stack) =
        dvLoop fam fuel (res ++ (L.map (coleccionD fam d)).flatten) stack := by
  intro d
  induction d with
  | zero =>
    intro L hL
    cases L with
    | nil =>
      intro res stack fuel
      simp
    | cons c L' =>
      exact absurd (hL c (by simp)) (by simp [AlturaLt])
  | succ d ihd =>
    intro L
    induction L with
    | nil =>
      intro hL res stack fuel
      simp
    | cons c L' ihL =>
      intro hL res stack fuel
      have hcAlt : AlturaLt fam (d + 1) c := hL c (by simp)
      have hL' : ∀ x ∈ L', AlturaLt fam (d + 1) x := fun x hx => hL x (by simp [hx])
      cases hc : fam.obtener c with
      | none =>
        have hcost : costoD fam (d + 1) c = 1 := by
          simp only [costoD, hc]
        have hcol : coleccionD fam (d + 1) c = [] := by
          simp only [coleccionD, hc]
        rw [List.map_cons, List.sum_cons, hcost, List.cons_append]
        rw [show 1 + (L'.map (costoD fam (d + 1))).sum + fuel =
          ((L'.map (costoD fam (d + 1))).sum + fuel) + 1 from by omega]
        rw [dvLoop_cons_none fam _ res c _ hc]
        rw [ihL hL' res stack fuel, List.map_cons, List.flatten_cons, hcol]
        simp
      | some p =>
        have hcost : costoD fam (d + 1) c =
            1 + ((listaOrdenada p.hijos).reverse.map (costoD fam d)).sum := by
          simp only [costoD, hc]
        have hcol : coleccionD fam (d + 1) c =
            (if p.vivo then [p] else []) ++
              ((listaOrdenada p.hijos).reverse.map (coleccionD fam d)).flatten := by
          simp only [coleccionD, hc]
        have hkids : ∀ x ∈ (listaOrdenada p.hijos).reverse, AlturaLt fam d x := by
          intro x hx
          rw [List.mem_reverse, mem_listaOrdenada] at hx
          exact hcAlt p hc x hx
        rw [List.map_cons, List.sum_cons, hcost, List.cons_append]
        rw [show 1 + ((listaOrdenada p.hijos).reverse.map (costoD fam d)).sum +
              (L'.map (costoD fam (d + 1))).sum + fuel =
            (((listaOrdenada p.hijos).reverse.map (costoD fam d)).sum +
              ((L'.map (costoD fam (d + 1))).sum + fuel)) + 1 from by omega]
        rw [dvLoop_cons_some fam _ res c _ p hc]
        rw [ihd _ hkids _ (L' ++ stack) _]
        rw [ihL hL' _ stack fuel]
        rw [List.map_cons, List.flatten_cons, hcol]
        by_cases hviv : p.vivo = true
        · simp [hviv, List.append_assoc]
        · simp [hviv, List.append_assoc]

theorem mem_coleccionD (fam : Familia) :
    ∀ (d : Nat) (c : String), AlturaLt fam d c → ∀ q : Persona,
      (q ∈ coleccionD fam d c ↔
        (q.vivo = true ∧ ∃ c', Relation.ReflTransGen (PasoHijo fam) c c' ∧
          fam.obtener c' = some q)) := by
  intro d
  induction d with
  | zero =>
    intro c hc
    exact absurd hc (by simp [AlturaLt])
  | succ d ihd =>
    intro c hc q
    cases hobC : fam.obtener c with
    | none =>
      have hval : coleccionD fam (d + 1) c = [] := by simp only [coleccionD, hobC]
      rw [hval]
      simp only [List.not_mem_nil, false_iff]
      rintro ⟨hviv, c', hrt, hc'⟩
      rcases Relation.ReflTransGen.cases_head hrt with h | ⟨c1, hstep, _⟩
      · rw [← h, hobC] at hc'
        cases hc'
      · obtain ⟨pp, hpp, _⟩ := hstep
        rw [hobC] at hpp
        cases hpp
    | some p =>
      have hval : coleccionD fam (d + 1) c =
          (if p.vivo then [p] else []) ++
            ((listaOrdenada p.hijos).reverse.map (coleccionD fam d)).flatten := by
        simp only [coleccionD, hobC]
      rw [hval]
      constructor
      · intro hq
        rcases List.mem_append.mp hq with hq | hq
        · by_cases hviv : p.vivo = true
          · rw [if_pos hviv] at hq
            have hqp : q = p := List.mem_singleton.mp hq
            subst hqp
            exact ⟨hviv, c, Relation.ReflTransGen.refl, hobC⟩
          · rw [if_neg hviv] at hq
            simp at hq
        · rcases List.mem_flatten.mp hq with ⟨l, hl, hql⟩
          rcases List.mem_map.mp hl with ⟨c1, hc1mem, rfl⟩
          have hc1 : c1 ∈ p.hijos := by
            rw [← mem_listaOrdenada]
            exact List.mem_reverse.mp hc1mem
          have halt : AlturaLt fam d c1 := hc p hobC c1 hc1
          rcases (ihd c1 halt q).mp hql with ⟨hviv, c', hrt, hres⟩
          exact ⟨hviv, c', Relation.ReflTransGen.head ⟨p, hobC, hc1⟩ hrt, hres⟩
      · rintro ⟨hviv, c', hrt, hres⟩
        rcases Relation.ReflTransGen.cases_head hrt with h | ⟨c1, hstep, htail⟩
        · subst h
          have hqp : q = p := by
            rw [hres] at hobC
            cases hobC
            rfl
          subst hqp
          refine List.mem_append.mpr (Or.inl ?_)
          rw [if_pos hviv]
          exact List.mem_singleton.mpr rfl
        · obtain ⟨pp, hpp, hc1hijos⟩ := hstep
          have hppp : pp = p := obtener_funcional hpp hobC
          subst hppp
          have halt : AlturaLt fam d c1 := hc pp hobC c1 hc1hijos
          have hin := (ihd c1 halt q).mpr ⟨hviv, c', htail, hres⟩
          refine List.mem_append.mpr (Or.inr ?_)
          refine List.mem_flatten.mpr ⟨coleccionD fam d c1, ?_, hin⟩
          refine List.mem_map.mpr ⟨c1, ?_, rfl⟩
          rw [List.mem_reverse, mem_listaOrdenada]
          exact hc1hijos

/-- The registered cédulas of a family. -/
def claves (fam : Familia) : Finset String := (fam.miembros.map Prod.fst).toFinset

theorem obtener_mem_claves {fam : Familia} {c : String} {p : Persona}
    (h : fam.obtener c = some p) : c ∈ claves fam := by
  unfold claves
  rw [List.mem_toFinset]
  exact buscarM_mem_keys h

theorem altura_of_acyclic (fam : Familia) (x : String) (hnc : ¬ HayCicloDesde fam x) :
    ∀ (n : Nat) (V : Finset String) (c : String),
      Relation.ReflTransGen (PasoHijo fam) x c →
      (∀ v ∈ V, Relation.ReflTransGen (PasoHijo fam) x v ∧
        Relation.TransGen (PasoHijo fam) v c) →
      (claves fam \ V).card ≤ n →
      AlturaLt fam (n + 1) c := by
  intro n
  induction n with
  | zero =>
    intro V c hreach hV hcard p hp c' hc'
    exfalso
    have hck : c ∈ claves fam := obtener_mem_claves hp
    by_cases hcV : c ∈ V
    · exact hnc ⟨c, hreach, (hV c hcV).2⟩
    · have hmem : c ∈ claves fam \ V := Finset.mem_sdiff.mpr ⟨hck, hcV⟩
      have := Finset.card_pos.mpr ⟨c, hmem⟩
      omega
  | succ n ihn =>
    intro V c hreach hV hcard p hp c' hc'
    have hck : c ∈ claves fam := obtener_mem_claves hp
    have hcV : c ∉ V := fun hcV => hnc ⟨c, hreach, (hV c hcV).2⟩
    have hstep : PasoHijo fam c c' := ⟨p, hp, hc'⟩
    refine ihn (insert c V) c' (hreach.tail hstep) ?_ ?_
    · intro v hv
      rcases Finset.mem_insert.mp hv with rfl | hvV
      · exact ⟨hreach, Relation.TransGen.single hstep⟩
      · exact ⟨(hV v hvV).1, (hV v hvV).2.tail hstep⟩
    · have hsub : claves fam \ insert c V = (claves fam \ V).erase c := by
        ext y
        simp only [Finset.mem_sdiff, Finset.mem_erase, Finset.mem_insert]
        tauto
      rw [hsub]
      have hmem : c ∈ claves fam \ V := Finset.mem_sdiff.mpr ⟨hck, hcV⟩
      rw [Finset.card_erase_of_mem hmem]
      omega

theorem dvLoop_ciclo (fam : Familia) :
    ∀ (fuel : Nat) (res : List Persona) (stack : List String),
      (∃ c ∈ stack, LlegaCiclo fam c) → dvLoop fam fuel res stack = none := by
  intro fuel
  induction fuel with
  | zero =>
    intro res stack h
    rfl
  | succ fuel ih =>
    rintro res stack ⟨c, hcs, hcyc⟩
    cases stack with
    | nil => simp at hcs
    | cons c0 rest =>
      rcases List.mem_cons.mp hcs with rfl | hcrest
      · obtain ⟨z, hrt, hcy⟩ := hcyc
        rcases Relation.ReflTransGen.cases_head hrt with heq | ⟨c1, hstep, htail⟩
        · subst heq
          obtain ⟨c1, hstep, hrest⟩ := Relation.TransGen.head'_iff.mp hcy
          obtain ⟨p, hp, hchild⟩ := hstep
          rw [dvLoop_cons_some fam fuel res c rest p hp]
          apply ih
          refine ⟨c1, List.mem_append.mpr (Or.inl ?_), ⟨c, hrest, hcy⟩⟩
          rw [List.mem_reverse, mem_listaOrdenada]
          exact hchild
        · obtain ⟨p, hp, hchild⟩ := hstep
          rw [dvLoop_cons_some fam fuel res c rest p hp]
          apply ih
          refine ⟨c1, List.mem_append.mpr (Or.inl ?_), ⟨z, htail, hcy⟩⟩
          rw [List.mem_reverse, mem_listaOrdenada]
          exact hchild
      · cases hob : fam.obtener c0 with
        | none =>
          rw [dvLoop_cons_none fam fuel res c0 rest hob]
          exact ih res rest ⟨c, hcrest, hcyc⟩
        | some p =>
          rw [dvLoop_cons_some fam fuel res c0 rest p hob]
          exact ih _ _ ⟨c, List.mem_append.mpr (Or.inr hcrest), hcyc⟩

/-- C3: for the fuel-indexed embedding of `descendientes_vivos`: (a) when no
child-link cycle is reachable from `x`, some fuel suffices (the run returns
`some res`) and `res` holds exactly the currently-alive persons reachable
from `x` by one or more resolvable child links; (b) when such a cycle is
reachable, every fuel runs out (the Python loop never terminates). -/
theorem C3_descendientes (fam : Familia) (x : String) :
    (¬ HayCicloDesde fam x →
      ∃ fuel res, descendientes_vivos fam x fuel = some res ∧
        ∀ q : Persona, q ∈ res ↔ (q.vivo = true ∧
          ∃ c, Relation.TransGen (PasoHijo fam) x c ∧ fam.obtener c = some q)) ∧
    (HayCicloDesde fam x →
      ∀ fuel, descendientes_vivos fam x fuel = none) := by
  constructor
  · intro hnc
    cases hobx : fam.obtener x with
    | none =>
      refine ⟨1, [], ?_, ?_⟩
      · unfold descendientes_vivos
        rw [hobx]
      · intro q
        simp only [List.not_mem_nil, false_iff]
        rintro ⟨hviv, c, htg, hc⟩
        obtain ⟨c1, ⟨p, hp, _⟩, _⟩ := Relation.TransGen.head'_iff.mp htg
        rw [hobx] at hp
        cases hp
    | some px =>
      have hLalt : ∀ c ∈ (listaOrdenada px.hijos).reverse,
          AlturaLt fam ((claves fam).card + 1) c := by
        intro c hcL
        have hchild : c ∈ px.hijos := by
          rw [List.mem_reverse, mem_listaOrdenada] at hcL
          exact hcL
        exact altura_of_acyclic fam x hnc (claves fam).card ∅ c
          (Relation.ReflTransGen.single ⟨px, hobx, hchild⟩)
          (by simp) (by simp)
      have h3 := dvLoop_avanza fam ((claves fam).card + 1)
        (listaOrdenada px.hijos).reverse hLalt [] [] 1
      rw [List.append_nil, dvLoop_nil, List.nil_append] at h3
      refine ⟨((listaOrdenada px.hijos).reverse.map
          (costoD fam ((claves fam).card + 1))).sum + 1,
        ((listaOrdenada px.hijos).reverse.map
          (coleccionD fam ((claves fam).card + 1))).flatten, ?_, ?_⟩
      · unfold descendientes_vivos
        rw [hobx]
        exact h3
      · intro q
        constructor
        · intro hq
          rcases List.mem_flatten.mp hq with ⟨l, hl, hql⟩
          rcases List.mem_map.mp hl with ⟨c1, hc1, rfl⟩
          have hchild : c1 ∈ px.hijos := by
            rw [List.mem_reverse, mem_listaOrdenada] at hc1
            exact hc1
          rcases (mem_coleccionD fam _ c1 (hLalt c1 hc1) q).mp hql with
            ⟨hviv, c', hrt, hres⟩
          exact ⟨hviv, c', Relation.TransGen.head' ⟨px, hobx, hchild⟩ hrt, hres⟩
        · rintro ⟨hviv, c, htg, hres⟩
          obtain ⟨c1, ⟨p0, hp0, hchild⟩, hrest⟩ := Relation.TransGen.head'_iff.mp htg
          have hpp : p0 = px := obtener_funcional hp0 hobx
          subst hpp
          have hcL : c1 ∈ (listaOrdenada p0.hijos).reverse := by
            rw [List.mem_reverse, mem_listaOrdenada]
            exact hchild
          refine List.mem_flatten.mpr ⟨coleccionD fam ((claves fam).card + 1) c1,
            List.mem_map.mpr ⟨c1, hcL, rfl⟩, ?_⟩
          exact (mem_coleccionD fam _ c1 (hLalt c1 hcL) q).mpr
            ⟨hviv, c, hrest, hres⟩
  · intro hcyc fuel
    unfold descendientes_vivos
    cases hobx : fam.obtener x with
    | none =>
      exfalso
      obtain ⟨z, hrt, hcy⟩ := hcyc
      rcases Relation.ReflTransGen.cases_head hrt with heq | ⟨c1, hstep, _⟩
      · subst heq
        obtain ⟨c1, ⟨p, hp, _⟩, _⟩ := Relation.TransGen.head'_iff.mp hcy
        rw [hobx] at hp
        cases hp
      · obtain ⟨p, hp, _⟩ := hstep
        rw [hobx] at hp
        cases hp
    | some px =>
      apply dvLoop_ciclo
      obtain ⟨z, hrt, hcy⟩ := hcyc
      rcases Relation.ReflTransGen.cases_head hrt with heq | ⟨c1, hstep, htail⟩
      · subst heq
        obtain ⟨c1, hstep, hrest⟩ := Relation.TransGen.head'_iff.mp hcy
        obtain ⟨p, hp, hchild⟩ := hstep
        have hpp : p = px := obtener_funcional hp hobx
        subst hpp
        refine ⟨c1, ?_, ⟨x, hrest, hcy⟩⟩
        rw [List.mem_reverse, mem_listaOrdenada]
        exact hchild
      · obtain ⟨p, hp, hchild⟩ := hstep
        have hpp : p = px := obtener_funcional hp hobx
        subst hpp
        refine ⟨c1, ?_, ⟨z, htail, hcy⟩⟩
        rw [List.mem_reverse, mem_listaOrdenada]
        exact hchild

/-- Parent for the C3 witness family: one child link to `"s"`. -/
def personaRC3 : Persona :=
  { cedula := "r", nombre := "Rosa", fecha_nacimiento := ⟨1980, 1, 1⟩,
    genero := "Femenino", provincia := "San José", hijos := {"s"} }

/-- Living child for the C3 witness family. -/
def personaSC3 : Persona :=
  { cedula := "s", nombre := "Sol", fecha_nacimiento := ⟨2010, 1, 1⟩,
    genero := "Femenino", provincia := "San José" }

/-- Acyclic witness family: `"r" → "s"` and nothing else. -/
def famC3w : Familia := ⟨"f", "F", [("r", personaRC3), ("s", personaSC3)]⟩

/-- A person who is their own registered child (constructible with the
unconstrained `registrar_padre_hijo`). -/
def personaUC3 : Persona :=
  { cedula := "u", nombre := "Uri", fecha_nacimiento := ⟨1980, 1, 1⟩,
    genero := "Otro", provincia := "San José", hijos := {"u"} }

/-- Cyclic witness family: the self-loop `"u" → "u"`. -/
def famC3c : Familia := ⟨"fc", "FC", [("u", personaUC3)]⟩

theorem pasoHijo_famC3w {a b : String} (h : PasoHijo famC3w a b) : a = "r" ∧ b = "s" := by
  obtain ⟨p, hp, hb⟩ := h
  unfold famC3w Familia.obtener buscarM at hp
  by_cases h1 : "r" = a
  · rw [if_pos h1] at hp
    cases hp
    rw [show personaRC3.hijos = ({"s"} : Finset String) from rfl] at hb
    exact ⟨h1.symm, Finset.mem_singleton.mp hb⟩
  · rw [if_neg h1] at hp
    unfold buscarM at hp
    by_cases h2 : "s" = a
    · rw [if_pos h2] at hp
      cases hp
      rw [show personaSC3.hijos = (∅ : Finset String) from rfl] at hb
      exact absurd hb (Finset.not_mem_empty b)
    · rw [if_neg h2] at hp
      cases hp

theorem noCiclo_famC3w : ¬ HayCicloDesde famC3w "r" := by
  rintro ⟨z, hrt, hcy⟩
  obtain ⟨c1, hstep1, hrest1⟩ := Relation.TransGen.head'_iff.mp hcy
  obtain ⟨hz, hc1⟩ := pasoHijo_famC3w hstep1
  subst hz
  subst hc1
  rcases Relation.ReflTransGen.cases_head hrest1 with heq | ⟨c2, hstep2, _⟩
  · exact absurd heq (by decide)
  · exact absurd (pasoHijo_famC3w hstep2).1 (by decide)

theorem ciclo_famC3c : HayCicloDesde famC3c "u" := by
  refine ⟨"u", Relation.ReflTransGen.refl, Relation.TransGen.single ?_⟩
  refine ⟨personaUC3, by decide, by decide⟩

/-- Witness for C3: the acyclic two-member family terminates with the correct
result set, and the self-loop family exhausts any fuel. -/
theorem C3_descendientes_witness :
    (∃ fuel res, descendientes_vivos famC3w "r" fuel = some res ∧
      ∀ q : Persona, q ∈ res ↔ (q.vivo = true ∧
        ∃ c, Relation.TransGen (PasoHijo famC3w) "r" c ∧ famC3w.obtener c = some q)) ∧
    descendientes_vivos famC3c "u" 5 = none :=
  ⟨(C3_descendientes famC3w "r").1 noCiclo_famC3w,
   (C3_descendientes famC3c "u").2 ciclo_famC3c 5⟩
